import Mathlib

/-!
Verification of the spacecraft_scheduler repository: a shallow embedding of
the task/resource domain model, the resource engine, the greedy scheduler
(`EnduranceSimpleScheduler`), the exact (MILP) scheduler's model and
extraction, and the dict (de)serialization, together with theorems settling
the specification claims.

Modelling conventions:
* `datetime` and `timedelta` values are integers counting microseconds
  (Python's datetime resolution); wall-clock reads (`datetime.now()`) are an
  explicit `now` parameter, and `solve_time` is reported as 0.
* Python `float` quantities (resource amounts, capacities, seconds) are
  rationals; `float('inf')` defaults are `Option` values with `none` = ∞.
* Fallible Python code (a raised `ValueError`/`TypeError`) is `Except String`.
* Python dicts used as ordered key→value maps are association lists with
  insert-or-overwrite keeping the original key position, as CPython does.
-/

namespace SpacecraftScheduler

/-- Microseconds since an arbitrary epoch (`datetime`) or a span (`timedelta`). -/
abbrev Micros := Int

/-- One second, in microseconds. -/
def microsPerSecond : Int := 1000000

/-- Python `timedelta.total_seconds()`: exact rational seconds. -/
def totalSeconds (d : Micros) : ℚ := (d : ℚ) / (microsPerSecond : ℚ)

/-- Python `timedelta(seconds=s)` at microsecond resolution. -/
def timedeltaOfSeconds (s : ℚ) : Micros := ⌊s * (microsPerSecond : ℚ)⌋

/-- String-keyed Python dict, insertion ordered. -/
abbrev PyDict (α : Type) := List (String × α)

/-- Opaque metadata payloads are passed through unchanged by all the code we
model; a string-to-string dict suffices. -/
abbrev MetaData := PyDict String

/-- CPython dict assignment `m[k] = v`: overwrite in place if the key exists
(keeping its position), else append at the end. -/
def dictSet {α : Type} (m : PyDict α) (k : String) (v : α) : PyDict α :=
  if (m.find? (fun p => p.1 = k)).isSome then
    m.map (fun p => if p.1 = k then (k, v) else p)
  else
    m ++ [(k, v)]

/-- Python `m.get(k, d)` / `m[k]` lookup. -/
def dictGet {α : Type} (m : PyDict α) (k : String) : Option α :=
  (m.find? (fun p => p.1 = k)).map (·.2)

/-! ## Resource model (`src/common/resources/endurance_resource.py`) -/

/-- Python `ResourceType`. -/
inductive ResourceType
  | integer
  | cumulative_rate
deriving DecidableEq

/-- Python `ResourceStatus`. -/
inductive ResourceStatus
  | available
  | in_use
  | maintenance
  | offline
deriving DecidableEq

/-- Python `ResourceStatus.value`. -/
def ResourceStatus.toValue : ResourceStatus → String
  | .available => "available"
  | .in_use => "in_use"
  | .maintenance => "maintenance"
  | .offline => "offline"

/-- Python `ResourceStatus(value)`; raises `ValueError` on an unknown tag. -/
def resourceStatusOfValue (s : String) : Except String ResourceStatus :=
  if s = "available" then .ok .available
  else if s = "in_use" then .ok .in_use
  else if s = "maintenance" then .ok .maintenance
  else if s = "offline" then .ok .offline
  else .error ("ValueError: " ++ s ++ " is not a valid ResourceStatus")

/-- Python `ResourceType.value`. -/
def ResourceType.toValue : ResourceType → String
  | .integer => "integer"
  | .cumulative_rate => "cumulative_rate"

/-- Python `ResourceType(value)`. -/
def resourceTypeOfValue (s : String) : Except String ResourceType :=
  if s = "integer" then .ok .integer
  else if s = "cumulative_rate" then .ok .cumulative_rate
  else .error ("ValueError: " ++ s ++ " is not a valid ResourceType")

/-- Python `ResourceState` dataclass. -/
structure ResourceState where
  current_value : ℚ
  rate : ℚ := 0
  last_updated : Micros := 0
  metadata : MetaData := []
deriving DecidableEq

/-- Python `EnduranceResource` dataclass (field for field). -/
structure EnduranceResource where
  id : String
  name : String
  description : String
  resource_type : ResourceType
  max_capacity : Option ℚ := none
  initial_value : Option ℚ := none
  min_value : Option ℚ := none
  max_value : Option ℚ := none
  current_state : ResourceState := { current_value := 0 }
  status : ResourceStatus := .available
  location : Option String := none
  capabilities : List String := []
  metadata : MetaData := []
  created_at : Micros := 0
deriving DecidableEq

namespace EnduranceResource

/-- Python `_validate_configuration`: raises `ValueError` on an inconsistent
configuration. -/
def validateConfiguration (r : EnduranceResource) : Except String Unit :=
  match r.resource_type with
  | .integer =>
    match r.max_capacity with
    | none => .error "INTEGER resources must have max_capacity"
    | some cap =>
      if cap ≤ 0 then .error "max_capacity must be positive" else .ok ()
  | .cumulative_rate =>
    match r.initial_value with
    | none => .error "CUMULATIVE_RATE resources must have initial_value"
    | some _ =>
      match r.min_value, r.max_value with
      | some lo, some hi =>
        if lo > hi then .error "min_value cannot exceed max_value" else .ok ()
      | _, _ => .ok ()

/-- Python `_initialize_state`: reset `current_state.current_value` from the type. -/
def initializeState (r : EnduranceResource) : EnduranceResource :=
  match r.resource_type with
  | .integer =>
    { r with current_state := { r.current_state with current_value := 0 } }
  | .cumulative_rate =>
    { r with current_state :=
        { r.current_state with current_value := (r.initial_value.getD 0) } }

/-- The dataclass constructor followed by `__post_init__` (validation, then
state initialization). -/
def construct (r : EnduranceResource) : Except String EnduranceResource := do
  r.validateConfiguration
  pure r.initializeState

/-- Python `can_allocate`.  Comparing a number against a missing (`None`) capacity
is the Python `TypeError` path. -/
def can_allocate (r : EnduranceResource) (amount : ℚ) : Except String Bool :=
  if r.status ≠ .available then .ok false
  else
    match r.resource_type with
    | .integer =>
      match r.max_capacity with
      | none => .error "TypeError: comparison of float and NoneType"
      | some cap => .ok (r.current_state.current_value + amount ≤ cap)
    | .cumulative_rate =>
      let new_value := r.current_state.current_value + amount
      if (match r.min_value with | some lo => decide (new_value < lo) | none => false) then
        .ok false
      else if (match r.max_value with | some hi => decide (new_value > hi) | none => false) then
        .ok false
      else
        .ok true

/-- Python `allocate`: returns whether the allocation was accepted together with the
post-call resource.  (`last_updated` is wall clock and kept unchanged.) -/
def allocate (r : EnduranceResource) (amount : ℚ) :
    Except String (Bool × EnduranceResource) := do
  let ok ← r.can_allocate amount
  if ok then
    let r1 := { r with current_state :=
      { r.current_state with
          current_value := r.current_state.current_value + amount } }
    match r1.resource_type, r1.max_capacity with
    | .integer, none => .error "TypeError: comparison of float and NoneType"
    | .integer, some cap =>
      if cap ≤ r1.current_state.current_value then
        pure (true, { r1 with status := .in_use })
      else
        pure (true, r1)
    | .cumulative_rate, _ => pure (true, r1)
  else
    pure (false, r)

/-- Python `deallocate`. -/
def deallocate (r : EnduranceResource) (amount : ℚ) :
    Except String (Bool × EnduranceResource) :=
  match r.resource_type with
  | .integer =>
    if r.current_state.current_value < amount then .ok (false, r)
    else
      let r1 := { r with current_state :=
        { r.current_state with
            current_value := r.current_state.current_value - amount } }
      match r1.max_capacity with
      | none => .error "TypeError: comparison of float and NoneType"
      | some cap =>
        if r1.current_state.current_value < cap ∧ r1.status = .in_use then
          .ok (true, { r1 with status := .available })
        else
          .ok (true, r1)
  | .cumulative_rate =>
    .ok (true, { r with current_state :=
      { r.current_state with
          current_value := r.current_state.current_value - amount } })

/-- Python `available_capacity` property; `none` is `float('inf')`. -/
def availableCapacity (r : EnduranceResource) : Except String (Option ℚ) :=
  match r.resource_type with
  | .integer =>
    match r.max_capacity with
    | none => .error "TypeError: subtraction with NoneType"
    | some cap => .ok (some (cap - r.current_state.current_value))
  | .cumulative_rate =>
    match r.max_value with
    | some hi => .ok (some (hi - r.current_state.current_value))
    | none => .ok none

/-- Python `is_within_bounds`. -/
def isWithinBounds (r : EnduranceResource) : Bool :=
  match r.resource_type with
  | .integer =>
    match r.max_capacity with
    | none => false
    | some cap =>
      0 ≤ r.current_state.current_value ∧ r.current_state.current_value ≤ cap
  | .cumulative_rate =>
    if (match r.min_value with
        | some lo => decide (r.current_state.current_value < lo)
        | none => false) then false
    else if (match r.max_value with
        | some hi => decide (r.current_state.current_value > hi)
        | none => false) then false
    else true

end EnduranceResource

/-! ## Task model (`src/common/tasks/endurance_task.py`) -/

/-- Python `TaskConstraintType`. -/
inductive TaskConstraintType
  | start_after_end
  | contained
deriving DecidableEq

/-- Python `TaskConstraintType.value`. -/
def TaskConstraintType.toValue : TaskConstraintType → String
  | .start_after_end => "start_after_end"
  | .contained => "contained"

/-- Python `TaskConstraintType(value)`. -/
def taskConstraintTypeOfValue (s : String) : Except String TaskConstraintType :=
  if s = "start_after_end" then .ok .start_after_end
  else if s = "contained" then .ok .contained
  else .error ("ValueError: " ++ s ++ " is not a valid TaskConstraintType")

/-- Python `TaskStatus`. -/
inductive TaskStatus
  | pending
  | scheduled
  | in_progress
  | completed
  | failed
  | cancelled
deriving DecidableEq

/-- Python `TaskStatus.value`. -/
def TaskStatus.toValue : TaskStatus → String
  | .pending => "pending"
  | .scheduled => "scheduled"
  | .in_progress => "in_progress"
  | .completed => "completed"
  | .failed => "failed"
  | .cancelled => "cancelled"

/-- Python `TaskStatus(value)`. -/
def taskStatusOfValue (s : String) : Except String TaskStatus :=
  if s = "pending" then .ok .pending
  else if s = "scheduled" then .ok .scheduled
  else if s = "in_progress" then .ok .in_progress
  else if s = "completed" then .ok .completed
  else if s = "failed" then .ok .failed
  else if s = "cancelled" then .ok .cancelled
  else .error ("ValueError: " ++ s ++ " is not a valid TaskStatus")

/-- Python `TaskConstraint` dataclass. -/
structure TaskConstraint where
  constraint_type : TaskConstraintType
  target_task_id : String
  metadata : MetaData := []
deriving DecidableEq

/-- Python `ResourceConstraint` dataclass; `max_amount = none` is the
`float('inf')` default. -/
structure ResourceConstraint where
  resource_id : String
  min_amount : ℚ := 0
  max_amount : Option ℚ := none
  metadata : MetaData := []
deriving DecidableEq

/-- Python `ResourceImpact` dataclass. -/
structure ResourceImpact where
  resource_id : String
  impact_type : String
  impact_value : ℚ
  metadata : MetaData := []
deriving DecidableEq

/-- Python `EnduranceTask` dataclass (field for field). -/
structure EnduranceTask where
  id : String
  name : String
  description : String
  start_time : Micros
  end_time : Micros
  min_duration : Micros
  max_duration : Micros
  preferred_duration : Micros
  task_constraints : List TaskConstraint := []
  resource_constraints : List ResourceConstraint := []
  resource_impacts : List ResourceImpact := []
  priority : Int := 1
  location : Option String := none
  metadata : MetaData := []
  status : TaskStatus := .pending
  created_at : Micros := 0
deriving DecidableEq

namespace EnduranceTask

/-- Python `_validate_time_constraints` and `_validate_duration_constraints`
(`__post_init__`). -/
def validateConstruction (t : EnduranceTask) : Except String Unit :=
  if t.start_time ≥ t.end_time then
    .error "start_time must be before end_time"
  else if t.max_duration > t.end_time - t.start_time then
    .error "max_duration cannot exceed available time window"
  else if t.min_duration > t.max_duration then
    .error "min_duration cannot exceed max_duration"
  else if ¬ (t.min_duration ≤ t.preferred_duration ∧
             t.preferred_duration ≤ t.max_duration) then
    .error "preferred_duration must be within min/max range"
  else
    .ok ()

/-- The dataclass constructor followed by `__post_init__`. -/
def construct (t : EnduranceTask) : Except String EnduranceTask := do
  t.validateConstruction
  pure t

end EnduranceTask

/-! ## Scheduler base types (`src/algorithms/base.py`) -/

/-- Python `ScheduleStatus`. -/
inductive ScheduleStatus
  | success
  | failed
  | partialStatus
  | timeout
deriving DecidableEq

/-- Python `ScheduleStatus.value`. -/
def ScheduleStatus.toValue : ScheduleStatus → String
  | .success => "success"
  | .failed => "failed"
  | .partialStatus => "partial"
  | .timeout => "timeout"

/-- Python `ScheduleStatus(value)`. -/
def scheduleStatusOfValue (s : String) : Except String ScheduleStatus :=
  if s = "success" then .ok .success
  else if s = "failed" then .ok .failed
  else if s = "partial" then .ok .partialStatus
  else if s = "timeout" then .ok .timeout
  else .error ("ValueError: " ++ s ++ " is not a valid ScheduleStatus")

/-- The per-resource impact record stored in
`EnduranceScheduledTask.resource_impacts`. -/
structure ImpactRecord where
  impact_type : String
  impact_value : ℚ
deriving DecidableEq

/-- Python `EnduranceScheduledTask` dataclass. -/
structure EnduranceScheduledTask where
  task_id : String
  start_time : Micros
  end_time : Micros
  duration : Micros
  resource_allocations : PyDict ℚ := []
  resource_impacts : PyDict ImpactRecord := []
  priority : Int := 1
  metadata : MetaData := []
deriving DecidableEq

namespace EnduranceScheduledTask

/-- Python `__post_init__`: the dataclass's own validation. -/
def validateConstruction (st : EnduranceScheduledTask) : Except String Unit :=
  if st.start_time ≥ st.end_time then
    .error "start_time must be before end_time"
  else if |totalSeconds (st.end_time - st.start_time) - totalSeconds st.duration| > 1 then
    .error "duration must match end_time - start_time"
  else
    .ok ()

/-- The dataclass constructor followed by `__post_init__`. -/
def construct (st : EnduranceScheduledTask) : Except String EnduranceScheduledTask := do
  st.validateConstruction
  pure st

end EnduranceScheduledTask

/-- Python `EnduranceScheduleResult` dataclass. -/
structure EnduranceScheduleResult where
  status : ScheduleStatus
  schedule : List EnduranceScheduledTask := []
  unscheduled_tasks : List String := []
  solve_time : ℚ := 0
  message : String := ""
  metadata : MetaData := []
deriving DecidableEq

namespace EnduranceScheduleResult

/-- Python `total_scheduled_tasks` property. -/
def totalScheduledTasks (r : EnduranceScheduleResult) : Nat := r.schedule.length

/-- Python `total_unscheduled_tasks` property. -/
def totalUnscheduledTasks (r : EnduranceScheduleResult) : Nat :=
  r.unscheduled_tasks.length

/-- Python `total_tasks` property. -/
def totalTasks (r : EnduranceScheduleResult) : Nat :=
  r.totalScheduledTasks + r.totalUnscheduledTasks

/-- Python `success_rate` property. -/
def successRate (r : EnduranceScheduleResult) : ℚ :=
  if r.totalTasks = 0 then 0
  else (r.totalScheduledTasks : ℚ) / (r.totalTasks : ℚ)

/-- Python `get_schedule_duration`. -/
def getScheduleDuration (r : EnduranceScheduleResult) : Micros :=
  match r.schedule with
  | [] => 0
  | st :: rest =>
    let maxEnd := rest.foldl (fun m t => max m t.end_time) st.end_time
    let minStart := rest.foldl (fun m t => min m t.start_time) st.start_time
    maxEnd - minStart

/-- Python `get_resource_utilization`. -/
def getResourceUtilization (r : EnduranceScheduleResult) : PyDict ℚ :=
  let total_time := totalSeconds r.getScheduleDuration
  if total_time = 0 then []
  else
    let usage := r.schedule.foldl (fun usage st =>
      let task_duration := totalSeconds st.duration
      st.resource_allocations.foldl (fun usage p =>
        let prev := (dictGet usage p.1).getD 0
        dictSet usage p.1 (prev + p.2 * task_duration)) usage) []
    usage.map (fun p => (p.1, p.2 / total_time))

end EnduranceScheduleResult

/-- Python `BaseScheduler.validate_inputs`. -/
def validateInputs (tasks : List EnduranceTask)
    (resources : List EnduranceResource) : List String :=
  (if tasks = [] then ["No tasks provided"] else []) ++
  (if resources = [] then ["No resources provided"] else []) ++
  (tasks.flatMap (fun task =>
    (if task.start_time ≥ task.end_time then
       ["Task " ++ task.id ++ " has invalid time window"] else []) ++
    (if task.min_duration > task.max_duration then
       ["Task " ++ task.id ++ " has invalid duration constraints"] else []) ++
    (if ¬ (task.min_duration ≤ task.preferred_duration ∧
           task.preferred_duration ≤ task.max_duration) then
       ["Task " ++ task.id ++ " preferred duration out of bounds"] else []) ++
    (if task.max_duration > task.end_time - task.start_time then
       ["Task " ++ task.id ++ " max duration exceeds time window"] else []))) ++
  (resources.flatMap (fun resource =>
    (if resource.resource_type.toValue = "integer" ∧ resource.max_capacity = none then
       ["Integer resource " ++ resource.id ++ " missing max_capacity"] else []) ++
    (if resource.resource_type.toValue = "cumulative_rate" ∧ resource.initial_value = none then
       ["Cumulative rate resource " ++ resource.id ++ " missing initial_value"] else [])))

/-- The scan of `scheduled_tasks` for the first entry with the constraint's
target id (`base.py`, the `for scheduled in scheduled_tasks` loops). -/
def findTarget (target_task_id : String)
    (scheduled : List EnduranceScheduledTask) : Option EnduranceScheduledTask :=
  scheduled.find? (fun s => s.task_id = target_task_id)

/-- The errors one `TaskConstraint` contributes in
`BaseScheduler.check_task_constraints`. -/
def constraintErrors (task : EnduranceTask)
    (scheduled : List EnduranceScheduledTask) (c : TaskConstraint) : List String :=
  match c.constraint_type with
  | .start_after_end =>
    match findTarget c.target_task_id scheduled with
    | none =>
      ["Task " ++ task.id ++ " depends on unscheduled task " ++ c.target_task_id]
    | some target =>
      if task.start_time < target.end_time then
        ["Task " ++ task.id ++ " cannot start after task " ++
          c.target_task_id ++ " ends"]
      else []
  | .contained =>
    match findTarget c.target_task_id scheduled with
    | none =>
      ["Task " ++ task.id ++ " depends on unscheduled task " ++ c.target_task_id]
    | some target =>
      if task.start_time < target.start_time ∨ task.end_time > target.end_time then
        ["Task " ++ task.id ++ " is not contained within task " ++
          c.target_task_id]
      else []

/-- Python `BaseScheduler.check_task_constraints`. -/
def checkTaskConstraints (task : EnduranceTask)
    (scheduled : List EnduranceScheduledTask) : List String :=
  task.task_constraints.flatMap (constraintErrors task scheduled)

/-- A resource manager as the scheduler sees it: `get_resource` by id
(`EnduranceResourceManager.get_resource` is a dict lookup over the
registered resources). -/
structure ResourceManagerView where
  get_resource : String → Option EnduranceResource

/-- The run-local resource usage tally at the top of
`check_resource_constraints`. -/
def currentUsage (scheduled : List EnduranceScheduledTask) : PyDict ℚ :=
  scheduled.foldl (fun usage st =>
    st.resource_allocations.foldl (fun usage p =>
      let prev := (dictGet usage p.1).getD 0
      dictSet usage p.1 (prev + p.2)) usage) []

/-- The errors one `ResourceConstraint` contributes in
`BaseScheduler.check_resource_constraints` (the `resource_manager` is known
to be set here).  Comparing against a `None` capacity is the Python
`TypeError` path. -/
def resourceConstraintErrors (rm : ResourceManagerView)
    (usage : PyDict ℚ) (c : ResourceConstraint) : Except String (List String) :=
  match rm.get_resource c.resource_id with
  | none => .ok ["Resource " ++ c.resource_id ++ " not found"]
  | some resource => do
    let avail? ← resource.availableCapacity
    let used := (dictGet usage c.resource_id).getD 0
    let e1 :=
      (match avail? with
       | some avail =>
         if c.min_amount > avail - used then
           ["Resource " ++ c.resource_id ++ " cannot provide minimum amount"]
         else []
       | none => [])
    match resource.max_capacity with
    | none => .error "TypeError: comparison of float and NoneType"
    | some cap =>
      let exceeds : Bool :=
        match c.max_amount with
        | none => true
        | some hi => decide (hi > cap)
      if exceeds then
        pure (e1 ++ ["Resource " ++ c.resource_id ++ " max amount exceeds capacity"])
      else
        pure e1

/-- Python `BaseScheduler.check_resource_constraints`; `rm? = none` is a scheduler
on which `set_managers` was never called. -/
def checkResourceConstraints (rm? : Option ResourceManagerView)
    (task : EnduranceTask) (scheduled : List EnduranceScheduledTask) :
    Except String (List String) :=
  match rm? with
  | none => .ok []
  | some rm =>
    let usage := currentUsage scheduled
    task.resource_constraints.foldlM (fun errors c => do
      let es ← resourceConstraintErrors rm usage c
      pure (errors ++ es)) []

/-! ## Greedy scheduler (`src/algorithms/endurance_simple_scheduler.py`) -/

/-- Python `EnduranceSimpleScheduler._try_schedule_task`.  `current_time` is the
scheduler's running cursor; `.ok none` is Python's `return None` (task not
placed), and a raised exception is `.error`. -/
def tryScheduleTask (rm? : Option ResourceManagerView) (task : EnduranceTask)
    (current_time : Micros) (scheduled_tasks : List EnduranceScheduledTask) :
    Except String (Option EnduranceScheduledTask) :=
  if current_time > task.end_time then
    .ok none
  else
    let start_time := max current_time task.start_time
    let available_time := task.end_time - start_time
    if available_time < task.min_duration then
      .ok none
    else
      let duration? : Option Micros :=
        if available_time ≥ task.preferred_duration then
          some task.preferred_duration
        else if available_time ≥ task.min_duration then
          some available_time
        else
          none
      match duration? with
      | none => .ok none
      | some duration =>
        let end_time := start_time + duration
        if checkTaskConstraints task scheduled_tasks ≠ [] then
          .ok none
        else do
          let resource_errors ← checkResourceConstraints rm? task scheduled_tasks
          if resource_errors ≠ [] then
            pure none
          else do
            let st ← EnduranceScheduledTask.construct
              { task_id := task.id
                start_time := start_time
                end_time := end_time
                duration := duration
                priority := task.priority
                metadata := [("algorithm", "Simple")] }
            let st := { st with resource_allocations :=
              (task.resource_constraints.foldl
                (fun m (c : ResourceConstraint) => dictSet m c.resource_id c.min_amount)
                st.resource_allocations) }
            let st := { st with resource_impacts :=
              (task.resource_impacts.foldl
                (fun m (i : ResourceImpact) => dictSet m i.resource_id
                  { impact_type := i.impact_type, impact_value := i.impact_value })
                st.resource_impacts) }
            pure (some st)

/-- The placement loop of `EnduranceSimpleScheduler.schedule` (step 4): one
iteration per task in priority order, threading the cursor and the two
output lists. -/
def scheduleLoop (rm? : Option ResourceManagerView)
    (tasks : List EnduranceTask) (current_time : Micros)
    (scheduled : List EnduranceScheduledTask) (unscheduled : List String) :
    Except String (List EnduranceScheduledTask × List String) :=
  match tasks with
  | [] => .ok (scheduled, unscheduled)
  | task :: rest => do
    let r ← tryScheduleTask rm? task current_time scheduled
    match r with
    | some st =>
      scheduleLoop rm? rest (max current_time st.end_time)
        (scheduled ++ [st]) unscheduled
    | none =>
      scheduleLoop rm? rest current_time scheduled (unscheduled ++ [task.id])

/-- The sort key of step 2: `sorted(tasks, key=lambda t: t.priority)`. -/
def priorityLe (a b : EnduranceTask) : Bool := a.priority ≤ b.priority

/-- Python `EnduranceSimpleScheduler.schedule`.  `now` stands for the
`datetime.now()` scheduling epoch; `solve_time` (a wall-clock measurement)
is reported as 0. -/
def simpleSchedule (rm? : Option ResourceManagerView) (now : Micros)
    (tasks : List EnduranceTask) (resources : List EnduranceResource) :
    Except String EnduranceScheduleResult :=
  let validation_errors := validateInputs tasks resources
  if validation_errors ≠ [] then
    .ok { status := .failed
          message := "Validation errors: " ++ String.intercalate ", " validation_errors }
  else do
    let sorted_tasks := tasks.mergeSort priorityLe
    let (scheduled_tasks, unscheduled_tasks) ← scheduleLoop rm? sorted_tasks now [] []
    let (status, message) :=
      if unscheduled_tasks = [] then
        (ScheduleStatus.success,
         "Successfully scheduled all " ++ toString scheduled_tasks.length ++ " tasks")
      else if scheduled_tasks ≠ [] then
        (ScheduleStatus.partialStatus,
         "Scheduled " ++ toString scheduled_tasks.length ++ " of " ++
           toString tasks.length ++ " tasks")
      else
        (ScheduleStatus.failed, "Failed to schedule any tasks")
    pure { status := status
           schedule := scheduled_tasks
           unscheduled_tasks := unscheduled_tasks
           solve_time := 0
           message := message }

/-! ## Exact scheduler (`src/algorithms/milp/endurance_milp_scheduler.py`)

The external MILP solver is an opaque oracle: the embedding keeps the model
the code builds (as a feasibility predicate on assignments), the solver
outcome as a parameter, and the solution extraction. -/

/-- Python `int(a / b)` on exact values: truncation toward zero. -/
def pyIntDiv (a b : Int) : Int := Int.tdiv a b

/-- Microseconds to whole minutes, truncating toward zero
(`int(delta.total_seconds() / 60)`). -/
def microsToMinutes (x : Micros) : Int := pyIntDiv x 60000000

/-- Python `EnduranceMILPScheduler._calculate_time_horizon` (minutes). -/
def calculateTimeHorizon (now : Micros) (tasks : List EnduranceTask) : Int :=
  match tasks.map (fun t => t.end_time) with
  | [] => 100
  | e :: es =>
    let latest_end := es.foldl max e
    max (microsToMinutes (latest_end - now)) 100

/-- The horizon as a natural number of minutes (it is at least 100). -/
def timeHorizonNat (now : Micros) (tasks : List EnduranceTask) : Nat :=
  (calculateTimeHorizon now tasks).toNat

/-- A valuation of the MILP decision variables: `x i t` (task `i` starts at
minute `t`), `y i` (start minute), `z i` (completion minute), `makespan`. -/
structure MilpAssignment where
  x : Nat → Nat → Bool
  y : Nat → Int
  z : Nat → Int
  makespan : Int

/-- Python `int(task.preferred_duration.total_seconds() / 60)`. -/
def taskDurationMinutes (task : EnduranceTask) : Int :=
  microsToMinutes task.preferred_duration

/-- The constraint system `EnduranceMILPScheduler.schedule` hands to the
solver, as a satisfaction check on an assignment: variable ranges, each task
starting exactly once, `z - y` equal to the preferred duration in minutes,
the (conditionally added) time-window bounds on `y`, `y_i - z_target ≥ 0`
for `StartAfterEnd` constraints, the single-actor mutual exclusion over
`x`, and `z_i - makespan ≥ 0`. -/
def milpFeasible (now : Micros) (tasks : List EnduranceTask)
    (a : MilpAssignment) : Bool :=
  let H := timeHorizonNat now tasks
  (tasks.enum.all fun p =>
    let i := p.1
    let task := p.2
    -- IntVar ranges for y, z
    (decide (0 ≤ a.y i) && decide (a.y i ≤ (H : Int) - 1) &&
     decide (0 ≤ a.z i) && decide (a.z i ≤ (H : Int))) &&
    -- each task starts exactly once
    (((List.range H).countP (fun t => a.x i t)) = 1 : Bool) &&
    -- duration: z[i] - y[i] = duration
    decide (a.z i - a.y i = taskDurationMinutes task) &&
    -- time windows, each bound only when its minute offset is nonnegative
    (let start_min := microsToMinutes (task.start_time - now)
     let start_max := microsToMinutes (task.end_time - task.preferred_duration - now)
     (if start_min ≥ 0 then decide (a.y i ≥ start_min) else true) &&
     (if start_max ≥ 0 then decide (a.y i ≤ start_max) else true)) &&
    -- StartAfterEnd dependencies: y[i] - z[target] ≥ 0
    (task.task_constraints.all fun c =>
      if c.constraint_type = .start_after_end then
        match tasks.findIdx? (fun t => t.id = c.target_task_id) with
        | some target_index => decide (a.y i - a.z target_index ≥ 0)
        | none => true
      else true)) &&
  -- mutual exclusion: at most one task active at any minute
  ((List.range H).all fun t =>
    (tasks.enum.foldl (fun acc p =>
      let i := p.1
      let duration := taskDurationMinutes p.2
      acc + ((List.range H).countP (fun (s : Nat) =>
        decide (max 0 ((t : Int) - duration + 1) ≤ (s : Int) ∧
                (s : Int) < min (H : Int) ((t : Int) + 1)) && a.x i s))) 0) ≤ 1) &&
  -- makespan variable range and constraint z[i] - makespan ≥ 0
  decide (0 ≤ a.makespan) && decide (a.makespan ≤ (H : Int)) &&
  (tasks.enum.all fun p => decide (a.z p.1 - a.makespan ≥ 0))

/-- Copying a task's `ResourceConstraint.min_amount` allocations and its
impacts onto a freshly built scheduled task (shared by both schedulers). -/
def attachResources (task : EnduranceTask) (st : EnduranceScheduledTask) :
    EnduranceScheduledTask :=
  let st := { st with resource_allocations :=
    (task.resource_constraints.foldl
      (fun m (c : ResourceConstraint) => dictSet m c.resource_id c.min_amount)
      st.resource_allocations) }
  { st with resource_impacts :=
    (task.resource_impacts.foldl
      (fun m (i : ResourceImpact) => dictSet m i.resource_id
        { impact_type := i.impact_type, impact_value := i.impact_value })
      st.resource_impacts) }

/-- The `for i, task in enumerate(tasks)` loop of
`EnduranceMILPScheduler._extract_solution`, one indexed task at a time. -/
def extractLoop (now : Micros) (H : Nat) (a : MilpAssignment) :
    List (Nat × EnduranceTask) → List EnduranceScheduledTask →
    Except String (List EnduranceScheduledTask)
  | [], schedule => .ok schedule
  | p :: rest, schedule =>
    match (List.range H).find? (fun t => a.x p.1 t) with
    | none => extractLoop now H a rest schedule
    | some start_minute => do
      let start_datetime := now + (start_minute : Int) * 60000000
      let end_datetime := start_datetime + p.2.preferred_duration
      let st ← EnduranceScheduledTask.construct
        { task_id := p.2.id
          start_time := start_datetime
          end_time := end_datetime
          duration := p.2.preferred_duration
          priority := p.2.priority
          metadata := [("algorithm", "MILP")] }
      extractLoop now H a rest (schedule ++ [attachResources p.2 st])

/-- Python `EnduranceMILPScheduler._extract_solution`: for each task, the first
minute `t` with `x[i,t] = 1`; dataclass construction can raise, which the
caller's `try` block turns into a failed result. -/
def extractSolution (now : Micros) (H : Nat) (a : MilpAssignment)
    (tasks : List EnduranceTask) :
    Except String (List EnduranceScheduledTask) :=
  extractLoop now H a tasks.enum []

/-- Python `pywraplp` solver result statuses. -/
inductive SolverStatus
  | optimal
  | feasible
  | infeasible
  | unbounded
  | abnormal
  | notSolved
deriving DecidableEq

/-- The integer code `str(status)` prints in the failure message. -/
def SolverStatus.code : SolverStatus → Nat
  | .optimal => 0
  | .feasible => 1
  | .infeasible => 2
  | .unbounded => 3
  | .abnormal => 4
  | .notSolved => 6

/-- What happened inside the `try` block around model construction and
solving: no solver backend, an exception, or a solver verdict together with
the variable assignment it reports. -/
inductive SolverOutcome
  | noSolver
  | raised (msg : String)
  | solved (status : SolverStatus) (a : MilpAssignment)

/-- Python `EnduranceMILPScheduler.schedule` with the solver call abstracted as
`outcome`; `solve_time` (wall clock) is reported as 0. -/
def milpSchedule (now : Micros) (tasks : List EnduranceTask)
    (resources : List EnduranceResource) (outcome : SolverOutcome) :
    EnduranceScheduleResult :=
  let validation_errors := validateInputs tasks resources
  if validation_errors ≠ [] then
    { status := .failed
      message := "Validation errors: " ++ String.intercalate ", " validation_errors }
  else if tasks = [] ∨ resources = [] then
    { status := .failed, message := "No tasks or resources provided" }
  else
    match outcome with
    | .noSolver =>
      { status := .failed, message := "Could not create OR-Tools solver" }
    | .raised msg =>
      { status := .failed, message := "Error in MILP scheduling: " ++ msg }
    | .solved status a =>
      if status = .optimal ∨ status = .feasible then
        match extractSolution now (timeHorizonNat now tasks) a tasks with
        | .ok schedule =>
          { status := .success
            schedule := schedule
            solve_time := 0
            message := "Schedule created with " ++ toString schedule.length ++ " tasks" }
        | .error msg =>
          { status := .failed, message := "Error in MILP scheduling: " ++ msg }
      else
        { status := .failed
          solve_time := 0
          message := "Solver failed with status: " ++ toString status.code }

/-! ## Dict (de)serialization (`to_dict` / `from_dict`)

ISO-8601 timestamps round-trip losslessly at Python's microsecond `datetime`
precision, so a serialized timestamp is modelled by the instant itself;
durations are serialized as exact total seconds. -/

/-- The dict produced by `TaskConstraint` entries in
`EnduranceTask.to_dict`. -/
structure TaskConstraintDict where
  constraint_type : String
  target_task_id : String
  metadata : MetaData
deriving DecidableEq

/-- The dict produced by `ResourceConstraint` entries. -/
structure ResourceConstraintDict where
  resource_id : String
  min_amount : ℚ
  max_amount : Option ℚ
  metadata : MetaData
deriving DecidableEq

/-- The dict produced by `ResourceImpact` entries. -/
structure ResourceImpactDict where
  resource_id : String
  impact_type : String
  impact_value : ℚ
  metadata : MetaData
deriving DecidableEq

/-- The dict produced by `EnduranceTask.to_dict`. -/
structure TaskDict where
  id : String
  name : String
  description : String
  start_time : Micros
  end_time : Micros
  min_duration : ℚ
  max_duration : ℚ
  preferred_duration : ℚ
  task_constraints : List TaskConstraintDict
  resource_constraints : List ResourceConstraintDict
  resource_impacts : List ResourceImpactDict
  priority : Int
  location : Option String
  metadata : MetaData
  status : String
  created_at : Micros
deriving DecidableEq

/-- Python `EnduranceTask.to_dict`. -/
def EnduranceTask.toDict (t : EnduranceTask) : TaskDict :=
  { id := t.id
    name := t.name
    description := t.description
    start_time := t.start_time
    end_time := t.end_time
    min_duration := totalSeconds t.min_duration
    max_duration := totalSeconds t.max_duration
    preferred_duration := totalSeconds t.preferred_duration
    task_constraints := t.task_constraints.map (fun c =>
      { constraint_type := c.constraint_type.toValue
        target_task_id := c.target_task_id
        metadata := c.metadata })
    resource_constraints := t.resource_constraints.map (fun c =>
      { resource_id := c.resource_id
        min_amount := c.min_amount
        max_amount := c.max_amount
        metadata := c.metadata })
    resource_impacts := t.resource_impacts.map (fun i =>
      { resource_id := i.resource_id
        impact_type := i.impact_type
        impact_value := i.impact_value
        metadata := i.metadata })
    priority := t.priority
    location := t.location
    metadata := t.metadata
    status := t.status.toValue
    created_at := t.created_at }

/-- Python `EnduranceTask.from_dict`: rebuild the base task (re-running
`__post_init__` validation), then re-add constraints and impacts through the
`add_*` methods, parsing enum tags (which can raise `ValueError`). -/
def taskFromDict (d : TaskDict) : Except String EnduranceTask := do
  let status ← taskStatusOfValue d.status
  let base ← EnduranceTask.construct
    { id := d.id
      name := d.name
      description := d.description
      start_time := d.start_time
      end_time := d.end_time
      min_duration := timedeltaOfSeconds d.min_duration
      max_duration := timedeltaOfSeconds d.max_duration
      preferred_duration := timedeltaOfSeconds d.preferred_duration
      priority := d.priority
      location := d.location
      metadata := d.metadata
      status := status
      created_at := d.created_at }
  let task_constraints ← d.task_constraints.mapM (fun c => do
    let ty ← taskConstraintTypeOfValue c.constraint_type
    pure { constraint_type := ty
           target_task_id := c.target_task_id
           metadata := c.metadata : TaskConstraint })
  let resource_constraints := d.resource_constraints.map (fun c =>
    { resource_id := c.resource_id
      min_amount := c.min_amount
      max_amount := c.max_amount
      metadata := c.metadata : ResourceConstraint })
  let resource_impacts := d.resource_impacts.map (fun i =>
    { resource_id := i.resource_id
      impact_type := i.impact_type
      impact_value := i.impact_value
      metadata := i.metadata : ResourceImpact })
  pure { base with
    task_constraints := task_constraints
    resource_constraints := resource_constraints
    resource_impacts := resource_impacts }

/-- The `current_state` sub-dict of `EnduranceResource.to_dict`. -/
structure ResourceStateDict where
  current_value : ℚ
  rate : ℚ
  last_updated : Micros
  metadata : MetaData
deriving DecidableEq

/-- The dict produced by `EnduranceResource.to_dict`. -/
structure ResourceDict where
  id : String
  name : String
  description : String
  resource_type : String
  max_capacity : Option ℚ
  initial_value : Option ℚ
  min_value : Option ℚ
  max_value : Option ℚ
  current_state : ResourceStateDict
  status : String
  location : Option String
  capabilities : List String
  metadata : MetaData
  created_at : Micros
deriving DecidableEq

/-- Python `EnduranceResource.to_dict`. -/
def EnduranceResource.toDict (r : EnduranceResource) : ResourceDict :=
  { id := r.id
    name := r.name
    description := r.description
    resource_type := r.resource_type.toValue
    max_capacity := r.max_capacity
    initial_value := r.initial_value
    min_value := r.min_value
    max_value := r.max_value
    current_state :=
      { current_value := r.current_state.current_value
        rate := r.current_state.rate
        last_updated := r.current_state.last_updated
        metadata := r.current_state.metadata }
    status := r.status.toValue
    location := r.location
    capabilities := r.capabilities
    metadata := r.metadata
    created_at := r.created_at }

/-- Python `EnduranceResource.from_dict`: rebuild the state and the resource, then
the dataclass constructor re-runs `__post_init__` — validation plus
`_initialize_state`, which overwrites `current_state.current_value`. -/
def resourceFromDict (d : ResourceDict) : Except String EnduranceResource := do
  let resource_type ← resourceTypeOfValue d.resource_type
  let status ← resourceStatusOfValue d.status
  EnduranceResource.construct
    { id := d.id
      name := d.name
      description := d.description
      resource_type := resource_type
      max_capacity := d.max_capacity
      initial_value := d.initial_value
      min_value := d.min_value
      max_value := d.max_value
      current_state :=
        { current_value := d.current_state.current_value
          rate := d.current_state.rate
          last_updated := d.current_state.last_updated
          metadata := d.current_state.metadata }
      status := status
      location := d.location
      capabilities := d.capabilities
      metadata := d.metadata
      created_at := d.created_at }

/-- The dict produced by `EnduranceScheduledTask.to_dict`. -/
structure ScheduledTaskDict where
  task_id : String
  start_time : Micros
  end_time : Micros
  duration : ℚ
  resource_allocations : PyDict ℚ
  resource_impacts : PyDict ImpactRecord
  priority : Int
  metadata : MetaData
deriving DecidableEq

/-- Python `EnduranceScheduledTask.to_dict`. -/
def EnduranceScheduledTask.toDict (st : EnduranceScheduledTask) : ScheduledTaskDict :=
  { task_id := st.task_id
    start_time := st.start_time
    end_time := st.end_time
    duration := totalSeconds st.duration
    resource_allocations := st.resource_allocations
    resource_impacts := st.resource_impacts
    priority := st.priority
    metadata := st.metadata }

/-- Python `EnduranceScheduledTask.from_dict` (the constructor re-runs
`__post_init__`). -/
def scheduledTaskFromDict (d : ScheduledTaskDict) :
    Except String EnduranceScheduledTask :=
  EnduranceScheduledTask.construct
    { task_id := d.task_id
      start_time := d.start_time
      end_time := d.end_time
      duration := timedeltaOfSeconds d.duration
      resource_allocations := d.resource_allocations
      resource_impacts := d.resource_impacts
      priority := d.priority
      metadata := d.metadata }

/-- The derived `statistics` block of `EnduranceScheduleResult.to_dict`
(written out, ignored by `from_dict`). -/
structure StatisticsDict where
  total_scheduled_tasks : Nat
  total_unscheduled_tasks : Nat
  success_rate : ℚ
  schedule_duration_seconds : ℚ
  resource_utilization : PyDict ℚ
deriving DecidableEq

/-- The dict produced by `EnduranceScheduleResult.to_dict`. -/
structure ScheduleResultDict where
  status : String
  schedule : List ScheduledTaskDict
  unscheduled_tasks : List String
  solve_time : ℚ
  message : String
  metadata : MetaData
  statistics : StatisticsDict
deriving DecidableEq

/-- Python `EnduranceScheduleResult.to_dict`. -/
def EnduranceScheduleResult.toDict (r : EnduranceScheduleResult) :
    ScheduleResultDict :=
  { status := r.status.toValue
    schedule := r.schedule.map EnduranceScheduledTask.toDict
    unscheduled_tasks := r.unscheduled_tasks
    solve_time := r.solve_time
    message := r.message
    metadata := r.metadata
    statistics :=
      { total_scheduled_tasks := r.totalScheduledTasks
        total_unscheduled_tasks := r.totalUnscheduledTasks
        success_rate := r.successRate
        schedule_duration_seconds := totalSeconds r.getScheduleDuration
        resource_utilization := r.getResourceUtilization } }

/-- Python `EnduranceScheduleResult.from_dict` (statistics are not read back). -/
def scheduleResultFromDict (d : ScheduleResultDict) :
    Except String EnduranceScheduleResult := do
  let status ← scheduleStatusOfValue d.status
  let schedule ← d.schedule.mapM scheduledTaskFromDict
  pure { status := status
         schedule := schedule
         unscheduled_tasks := d.unscheduled_tasks
         solve_time := d.solve_time
         message := d.message
         metadata := d.metadata }

/-! ## Helper lemmas -/

theorem exceptBind_ok {ε α β : Type} (a : α) (g : α → Except ε β) :
    (Except.ok a >>= g) = g a := rfl

theorem exceptBind_err {ε α β : Type} (e : ε) (g : α → Except ε β) :
    ((Except.error e : Except ε α) >>= g) = Except.error e := rfl

theorem scheduledTask_construct_ok {s st : EnduranceScheduledTask}
    (h : EnduranceScheduledTask.construct s = .ok st) : st = s := by
  unfold EnduranceScheduledTask.construct EnduranceScheduledTask.validateConstruction at h
  split at h
  · rw [exceptBind_err] at h; cases h
  · split at h
    · rw [exceptBind_err] at h; cases h
    · rw [exceptBind_ok] at h
      cases h
      rfl

theorem task_construct_ok {s st : EnduranceTask}
    (h : EnduranceTask.construct s = .ok st) : st = s := by
  unfold EnduranceTask.construct EnduranceTask.validateConstruction at h
  repeat' split at h
  all_goals first
    | (rw [exceptBind_err] at h; cases h)
    | (rw [exceptBind_ok] at h; cases h; rfl)

/-! ## Claim theorems -/

/-- C1: in `EnduranceSimpleScheduler._try_schedule_task` with the running
cursor `current_time`: a task whose window has closed (`cursor >
task.end_time`) is not placed; otherwise, with `candidate_start =
max(cursor, task.start_time)` and `available = task.end_time -
candidate_start`, the task is not placed when `available < min_duration`,
and any placed task starts at `candidate_start` with duration
`preferred_duration` when `available ≥ preferred_duration` and `available`
otherwise, never below `min_duration`, ending at `candidate_start +
duration`.  (`min_duration ≤ preferred_duration` is the task-construction
invariant, which `validate_inputs` has already enforced for every task the
placement loop considers.) -/
theorem greedy_placement_window_duration_spec
    (rm? : Option ResourceManagerView) (task : EnduranceTask)
    (cursor : Micros) (scheduled : List EnduranceScheduledTask)
    (hpref : task.min_duration ≤ task.preferred_duration) :
    (cursor > task.end_time →
      tryScheduleTask rm? task cursor scheduled = .ok none) ∧
    (cursor ≤ task.end_time →
      (task.end_time - max cursor task.start_time < task.min_duration →
        tryScheduleTask rm? task cursor scheduled = .ok none) ∧
      (∀ st, tryScheduleTask rm? task cursor scheduled = .ok (some st) →
        st.start_time = max cursor task.start_time ∧
        st.duration =
          (if task.end_time - max cursor task.start_time ≥ task.preferred_duration
           then task.preferred_duration
           else task.end_time - max cursor task.start_time) ∧
        task.min_duration ≤ st.duration ∧
        st.end_time = st.start_time + st.duration)) := by
  constructor
  · intro hlate
    unfold tryScheduleTask
    rw [if_pos hlate]
  · intro hok
    constructor
    · intro hshort
      unfold tryScheduleTask
      rw [if_neg (not_lt.mpr hok)]
      simp only []
      rw [if_pos hshort]
    · intro st h
      unfold tryScheduleTask at h
      rw [if_neg (not_lt.mpr hok)] at h
      simp only [] at h
      by_cases hshort : task.end_time - max cursor task.start_time < task.min_duration
      · rw [if_pos hshort] at h
        cases h
      · rw [if_neg hshort] at h
        have hd2 : (task.end_time - max cursor task.start_time ≥ task.min_duration) :=
          le_of_not_lt hshort
        rw [if_pos hd2] at h
        set duration :=
          (if task.end_time - max cursor task.start_time ≥ task.preferred_duration
           then task.preferred_duration
           else task.end_time - max cursor task.start_time) with hdval
        have hmatch : (if task.end_time - max cursor task.start_time ≥ task.preferred_duration
              then some task.preferred_duration
              else some (task.end_time - max cursor task.start_time)) = some duration := by
          rw [hdval]
          split <;> rfl
        rw [hmatch] at h
        simp only [] at h
        split at h
        · cases h
        · cases hrc : checkResourceConstraints rm? task scheduled with
          | error e => rw [hrc, exceptBind_err] at h; cases h
          | ok errs =>
            rw [hrc, exceptBind_ok] at h
            split at h
            · cases h
            · cases hc : EnduranceScheduledTask.construct
                  { task_id := task.id
                    start_time := max cursor task.start_time
                    end_time := max cursor task.start_time + duration
                    duration := duration
                    priority := task.priority
                    metadata := [("algorithm", "Simple")] } with
              | error e => rw [hc, exceptBind_err] at h; cases h
              | ok st0 =>
                rw [hc, exceptBind_ok] at h
                have hst0 := scheduledTask_construct_ok hc
                subst hst0
                cases h
                refine ⟨rfl, rfl, ?_, rfl⟩
                rw [hdval]
                split
                · exact hpref
                · exact le_of_not_lt hshort

deriving instance DecidableEq for Except

theorem flatMapEqNil {α β : Type} (l : List α) (f : α → List β) :
    l.flatMap f = [] ↔ ∀ x ∈ l, f x = [] := by
  induction l with
  | nil => simp
  | cons a t ih => simp [List.flatMap_cons, ih]

/-- Characterization of a single constraint's error contribution in
`check_task_constraints` in terms of the task's window. -/
theorem constraintErrors_eq_nil (task : EnduranceTask)
    (scheduled : List EnduranceScheduledTask) (c : TaskConstraint) :
    constraintErrors task scheduled c = [] ↔
      ∃ target, findTarget c.target_task_id scheduled = some target ∧
        (c.constraint_type = .start_after_end →
          target.end_time ≤ task.start_time) ∧
        (c.constraint_type = .contained →
          target.start_time ≤ task.start_time ∧
          task.end_time ≤ target.end_time) := by
  unfold constraintErrors
  rcases hct : c.constraint_type <;>
    rcases hft : findTarget c.target_task_id scheduled with _ | target <;>
    simp only []
  · simp
  · constructor
    · intro h
      split at h
      · simp at h
      · rename_i hlt
        exact ⟨target, rfl, fun _ => le_of_not_lt hlt,
          fun hco => absurd hco (by decide)⟩
    · rintro ⟨target', htgt, h1, -⟩
      cases htgt
      rw [if_neg (not_lt.mpr (h1 trivial))]
  · simp
  · constructor
    · intro h
      split at h
      · simp at h
      · rename_i hlt
        push_neg at hlt
        exact ⟨target, rfl, fun hco => absurd hco (by decide),
          fun _ => ⟨hlt.1, hlt.2⟩⟩
    · rintro ⟨target', htgt, -, h2⟩
      cases htgt
      have h2' := h2 trivial
      rw [if_neg (by push_neg; exact ⟨h2'.1, h2'.2⟩)]

/-- Lemma: `tryScheduleTask` returns `none` on every non-placement path (used to
show unsatisfied constraints route a task to `unscheduled_tasks`). -/
theorem tryScheduleTask_none_of_constraint_errors
    (rm? : Option ResourceManagerView) (task : EnduranceTask)
    (cursor : Micros) (scheduled : List EnduranceScheduledTask)
    (hc : checkTaskConstraints task scheduled ≠ []) :
    tryScheduleTask rm? task cursor scheduled = .ok none := by
  unfold tryScheduleTask
  by_cases hlate : cursor > task.end_time
  · rw [if_pos hlate]
  · rw [if_neg hlate]
    simp only []
    by_cases hshort : task.end_time - max cursor task.start_time < task.min_duration
    · rw [if_pos hshort]
    · rw [if_neg hshort]
      have hd2 : (task.end_time - max cursor task.start_time ≥ task.min_duration) :=
        le_of_not_lt hshort
      rw [if_pos hd2]
      set duration :=
        (if task.end_time - max cursor task.start_time ≥ task.preferred_duration
         then task.preferred_duration
         else task.end_time - max cursor task.start_time) with hdval
      have hmatch : (if task.end_time - max cursor task.start_time ≥ task.preferred_duration
            then some task.preferred_duration
            else some (task.end_time - max cursor task.start_time)) = some duration := by
        rw [hdval]
        split <;> rfl
      rw [hmatch]
      simp only []
      rw [if_pos hc]

/-- C2 counterexample: the `StartAfterEnd` check compares the task's
*window* start, not the candidate start.  Target "A" is placed as
`[0, 10]`; task "B" has window `[5, 30]` and a `StartAfterEnd` constraint
on "A"; with cursor 10 the candidate start `max(10, 5) = 10` is ≥ the
target's placed end 10, so the claim says the constraint is satisfied — yet
the code rejects B (window start 5 < placed end 10) and leaves it
unscheduled. -/
def scheduledA2 : EnduranceScheduledTask :=
  { task_id := "A", start_time := 0, end_time := 10, duration := 10 }

def taskB2 : EnduranceTask :=
  { id := "B", name := "B", description := ""
    start_time := 5, end_time := 30
    min_duration := 1, max_duration := 25, preferred_duration := 10
    task_constraints := [{ constraint_type := .start_after_end, target_task_id := "A" }] }

/-- C2 does not hold as stated: at the concrete configuration above the
claim's candidate-start condition is met while the code reports a
constraint error and does not place the task. -/
theorem check_task_constraints_candidate_counterexample :
    max (10 : Micros) taskB2.start_time ≥ scheduledA2.end_time ∧
    (10 : Micros) ≤ taskB2.end_time ∧
    taskB2.end_time - max (10 : Micros) taskB2.start_time ≥ taskB2.min_duration ∧
    checkTaskConstraints taskB2 [scheduledA2] ≠ [] ∧
    tryScheduleTask none taskB2 10 [scheduledA2] = .ok none := by
  refine ⟨by decide, by decide, by decide, by decide, by decide⟩

/-- C2 amended: `check_task_constraints` checks the task's *window*
`[task.start_time, task.end_time]` against the target's placed interval —
`StartAfterEnd` passes iff the window start is at or after the target's
placed end, `Contained` passes iff the window lies inside the target's
placed interval — and a constraint whose target has not been placed in this
run produces an error, so the task is routed to `unscheduled_tasks`. -/
theorem check_task_constraints_window_spec (task : EnduranceTask)
    (scheduled : List EnduranceScheduledTask) :
    (checkTaskConstraints task scheduled = [] ↔
      ∀ c ∈ task.task_constraints,
        ∃ target, findTarget c.target_task_id scheduled = some target ∧
          (c.constraint_type = .start_after_end →
            target.end_time ≤ task.start_time) ∧
          (c.constraint_type = .contained →
            target.start_time ≤ task.start_time ∧
            task.end_time ≤ target.end_time)) ∧
    (∀ c ∈ task.task_constraints,
      findTarget c.target_task_id scheduled = none →
      ∀ rm? cursor, tryScheduleTask rm? task cursor scheduled = .ok none) := by
  constructor
  · rw [checkTaskConstraints, flatMapEqNil]
    constructor
    · intro h c hc
      exact (constraintErrors_eq_nil task scheduled c).mp (h c hc)
    · intro h c hc
      exact (constraintErrors_eq_nil task scheduled c).mpr (h c hc)
  · intro c hc hnone rm? cursor
    apply tryScheduleTask_none_of_constraint_errors
    intro hnil
    rw [checkTaskConstraints, flatMapEqNil] at hnil
    have := (constraintErrors_eq_nil task scheduled c).mp (hnil c hc)
    rcases this with ⟨target, htgt, -, -⟩
    rw [hnone] at htgt
    cases htgt

/-- C10: with no resource manager set (`set_managers` never called),
`check_resource_constraints` returns no errors for any task, and the greedy
placement decision is independent of the task's `ResourceConstraints`: a
task fails to place only for window, duration, or task-constraint reasons. -/
theorem no_manager_skips_resource_checks (task : EnduranceTask)
    (cursor : Micros) (scheduled : List EnduranceScheduledTask) :
    checkResourceConstraints none task scheduled = .ok [] ∧
    (tryScheduleTask none task cursor scheduled = .ok none ↔
      cursor > task.end_time ∨
      task.end_time - max cursor task.start_time < task.min_duration ∨
      checkTaskConstraints task scheduled ≠ []) := by
  refine ⟨rfl, ?_⟩
  constructor
  · intro h
    by_contra hall
    push_neg at hall
    obtain ⟨hlate, hshort, hctc⟩ := hall
    unfold tryScheduleTask at h
    rw [if_neg (not_lt.mpr hlate)] at h
    simp only [] at h
    rw [if_neg (not_lt.mpr hshort)] at h
    have hd2 : (task.end_time - max cursor task.start_time ≥ task.min_duration) :=
      hshort
    rw [if_pos hd2] at h
    set duration :=
      (if task.end_time - max cursor task.start_time ≥ task.preferred_duration
       then task.preferred_duration
       else task.end_time - max cursor task.start_time) with hdval
    have hmatch : (if task.end_time - max cursor task.start_time ≥ task.preferred_duration
          then some task.preferred_duration
          else some (task.end_time - max cursor task.start_time)) = some duration := by
      rw [hdval]
      split <;> rfl
    rw [hmatch] at h
    simp only [] at h
    rw [if_neg (by simpa using hctc)] at h
    rw [show checkResourceConstraints none task scheduled = .ok [] from rfl,
        exceptBind_ok] at h
    rw [if_neg (by simp)] at h
    cases hcon : EnduranceScheduledTask.construct
        { task_id := task.id
          start_time := max cursor task.start_time
          end_time := max cursor task.start_time + duration
          duration := duration
          priority := task.priority
          metadata := [("algorithm", "Simple")] } with
    | error e => rw [hcon, exceptBind_err] at h; cases h
    | ok st0 => rw [hcon, exceptBind_ok] at h; cases h
  · intro h
    rcases h with hlate | hshort | hctc
    · unfold tryScheduleTask
      rw [if_pos hlate]
    · unfold tryScheduleTask
      by_cases hlate : cursor > task.end_time
      · rw [if_pos hlate]
      · rw [if_neg hlate]
        simp only []
        rw [if_pos hshort]
    · exact tryScheduleTask_none_of_constraint_errors none task cursor scheduled hctc

/-! ## Resource operation sequences (for the invariant claims) -/

/-- One `allocate`/`deallocate` call with its amount. -/
inductive ResOp
  | alloc (amount : ℚ)
  | dealloc (amount : ℚ)

/-- The amount carried by an operation. -/
def ResOp.amount : ResOp → ℚ
  | .alloc a => a
  | .dealloc a => a

/-- Perform one call on a resource. -/
def applyOp (r : EnduranceResource) : ResOp → Except String (Bool × EnduranceResource)
  | .alloc a => r.allocate a
  | .dealloc a => r.deallocate a

/-- Thread a sequence of calls through a resource (rejected calls leave the
state unchanged, so the final state is the state after the accepted ones). -/
def runOps (r : EnduranceResource) : List ResOp → Except String EnduranceResource
  | [] => .ok r
  | op :: rest => do
    let pr ← applyOp r op
    runOps pr.2 rest

/-- One Integer-resource call with a nonnegative amount keeps
`current_value` in `[0, max_capacity]` and preserves the type/capacity
fields. -/
theorem integer_applyOp_preserves (cap : ℚ) (r r' : EnduranceResource)
    (op : ResOp) (b : Bool)
    (ht : r.resource_type = .integer) (hc : r.max_capacity = some cap)
    (ha : 0 ≤ op.amount)
    (h0 : 0 ≤ r.current_state.current_value)
    (h1 : r.current_state.current_value ≤ cap)
    (h : applyOp r op = .ok (b, r')) :
    r'.resource_type = .integer ∧ r'.max_capacity = some cap ∧
    0 ≤ r'.current_state.current_value ∧ r'.current_state.current_value ≤ cap := by
  cases op with
  | alloc a =>
    simp only [applyOp] at h
    unfold EnduranceResource.allocate at h
    cases hca : r.can_allocate a with
    | error e => rw [hca, exceptBind_err] at h; cases h
    | ok okb =>
      rw [hca, exceptBind_ok] at h
      cases okb with
      | false =>
        simp only [Bool.false_eq_true, if_false] at h
        cases h
        exact ⟨ht, hc, h0, h1⟩
      | true =>
        have hle : r.current_state.current_value + a ≤ cap := by
          unfold EnduranceResource.can_allocate at hca
          split at hca
          · cases hca
          · rw [ht] at hca
            rw [hc] at hca
            simp at hca
            exact hca
        simp only [if_true] at h
        simp only [ht, hc] at h
        split at h <;> cases h <;>
          exact ⟨rfl, rfl, by simpa using add_nonneg h0 (by simpa using ha),
            by simpa using hle⟩
  | dealloc a =>
    simp only [applyOp] at h
    unfold EnduranceResource.deallocate at h
    rw [ht] at h
    simp only [] at h
    split at h
    · cases h
      exact ⟨ht, hc, h0, h1⟩
    · rename_i hge
      rw [hc] at h
      simp only [] at h
      have ha' : (0 : ℚ) ≤ a := by simpa using ha
      have hge' : a ≤ r.current_state.current_value := le_of_not_lt hge
      split at h <;> cases h <;>
        exact ⟨rfl, rfl, by simpa using sub_nonneg.mpr hge',
          by simp only []; linarith⟩

/-- Extension of the one-step preservation to whole call sequences. -/
theorem integer_runOps_preserves (cap : ℚ) (r r' : EnduranceResource)
    (ops : List ResOp)
    (ht : r.resource_type = .integer) (hc : r.max_capacity = some cap)
    (h0 : 0 ≤ r.current_state.current_value)
    (h1 : r.current_state.current_value ≤ cap)
    (ha : ∀ op ∈ ops, 0 ≤ op.amount)
    (h : runOps r ops = .ok r') :
    0 ≤ r'.current_state.current_value ∧ r'.current_state.current_value ≤ cap := by
  induction ops generalizing r with
  | nil =>
    unfold runOps at h
    cases h
    exact ⟨h0, h1⟩
  | cons op rest ih =>
    unfold runOps at h
    cases happ : applyOp r op with
    | error e => rw [happ, exceptBind_err] at h; cases h
    | ok pr =>
      rw [happ, exceptBind_ok] at h
      obtain ⟨ht2, hc2, h02, h12⟩ :=
        integer_applyOp_preserves cap r pr.2 op pr.1 ht hc
          (ha op (List.mem_cons_self op rest)) h0 h1 (by rw [happ])
      exact ih pr.2 ht2 hc2 h02 h12
        (fun o ho => ha o (List.mem_cons_of_mem op ho)) h

/-- Concrete resources used by counterexamples and witnesses. -/
def gripperRes : EnduranceResource :=
  { id := "R1", name := "gripper", description := "gripper pool"
    resource_type := .integer, max_capacity := some 1 }

def gripperRes2 : EnduranceResource :=
  { id := "R2", name := "gripper2", description := "gripper pool"
    resource_type := .integer, max_capacity := some 2 }

def batteryRes : EnduranceResource :=
  { id := "B1", name := "battery", description := "battery"
    resource_type := .cumulative_rate, initial_value := some 5
    min_value := some 0, max_value := some 10
    current_state := { current_value := 5 } }

unseal Rat.add Rat.sub Rat.mul Rat.inv in
/-- C5 counterexample: the invariant fails as stated.  On a freshly
constructed Integer resource with `max_capacity = 1`, `allocate(-1)` is
accepted (only the upper bound is checked) and drives `current_value` to
`-1 < 0`; on a CumulativeRate resource with bounds `[0, 10]` and value 5,
`deallocate(100)` is accepted (no bounds check at all) and drives the value
to `-95`, below `min_value`. -/
theorem resource_bounds_counterexample :
    gripperRes.allocate (-1) =
      .ok (true, { gripperRes with current_state :=
        { gripperRes.current_state with current_value := -1 } }) ∧
    ((-1 : ℚ) < 0) ∧
    batteryRes.deallocate 100 =
      .ok (true, { batteryRes with current_state :=
        { batteryRes.current_state with current_value := -95 } }) ∧
    ((-95 : ℚ) < 0) := by
  exact ⟨by decide, by decide, by decide, by decide⟩

/-- C5 amended: for a successfully constructed Integer resource the
invariant `0 ≤ current_value ≤ max_capacity` holds after every prefix of a
sequence of `allocate`/`deallocate` calls whose amounts are all
nonnegative (a prefix run is itself a `runOps` run, so the statement covers
every intermediate state); for a CumulativeRate resource with both bounds
set, `current_value` lies within `[min_value, max_value]` after every
*accepted* `allocate` call — accepted `deallocate` calls are not
bounds-checked and negative amounts are not checked against the Integer
lower bound, which is exactly what the counterexample exhibits. -/
theorem resource_bounds_invariant :
    (∀ (cap : ℚ) (r r' : EnduranceResource) (ops : List ResOp),
      r.resource_type = .integer → r.max_capacity = some cap →
      0 ≤ r.current_state.current_value → r.current_state.current_value ≤ cap →
      (∀ op ∈ ops, 0 ≤ op.amount) →
      runOps r ops = .ok r' →
      0 ≤ r'.current_state.current_value ∧ r'.current_state.current_value ≤ cap) ∧
    (∀ (lo hi amount : ℚ) (r r' : EnduranceResource),
      r.resource_type = .cumulative_rate →
      r.min_value = some lo → r.max_value = some hi →
      r.allocate amount = .ok (true, r') →
      lo ≤ r'.current_state.current_value ∧ r'.current_state.current_value ≤ hi) := by
  constructor
  · intro cap r r' ops ht hc h0 h1 ha h
    exact integer_runOps_preserves cap r r' ops ht hc h0 h1 ha h
  · intro lo hi amount r r' ht hlo hhi h
    unfold EnduranceResource.allocate at h
    cases hca : r.can_allocate amount with
    | error e => rw [hca, exceptBind_err] at h; cases h
    | ok okb =>
      rw [hca, exceptBind_ok] at h
      cases okb with
      | false => simp only [Bool.false_eq_true, if_false] at h; cases h
      | true =>
        have hbounds : lo ≤ r.current_state.current_value + amount ∧
            r.current_state.current_value + amount ≤ hi := by
          unfold EnduranceResource.can_allocate at hca
          split at hca
          · cases hca
          · rw [ht] at hca
            simp only [] at hca
            rw [hlo, hhi] at hca
            split at hca
            · cases hca
            · split at hca
              · cases hca
              · rename_i hnlo hnhi
                simp at hnlo hnhi
                exact ⟨hnlo, hnhi⟩
        simp only [if_true] at h
        simp only [ht] at h
        cases h
        exact ⟨by simpa using hbounds.1, by simpa using hbounds.2⟩

unseal Rat.add Rat.sub Rat.mul Rat.inv in
/-- C5 witness: the amended invariant applied to the concrete Integer
resource `gripperRes2` after the accepted call sequence `allocate(1)`. -/
theorem resource_bounds_invariant_witness :
    (0 : ℚ) ≤ ({ gripperRes2 with current_state :=
        { gripperRes2.current_state with current_value := 1 } } :
        EnduranceResource).current_state.current_value ∧
    ({ gripperRes2 with current_state :=
        { gripperRes2.current_state with current_value := 1 } } :
        EnduranceResource).current_state.current_value ≤ 2 :=
  resource_bounds_invariant.1 2 gripperRes2 _ [ResOp.alloc 1]
    rfl rfl (by decide) (by decide) (by decide) (by decide)

unseal Rat.add Rat.sub Rat.mul Rat.inv in
/-- C6 counterexample: the claim requires `allocate` to refuse whenever the
post-allocation value would lie outside `[0, max_capacity]`, but the
Integer branch of `can_allocate` never checks the lower bound: on a fresh
Integer resource with capacity 2, `allocate(-1)` has post-value `-1 < 0`
yet returns `True` and mutates the value. -/
theorem allocate_lower_bound_counterexample :
    gripperRes2.current_state.current_value + (-1) < 0 ∧
    gripperRes2.allocate (-1) =
      .ok (true, { gripperRes2 with current_state :=
        { gripperRes2.current_state with current_value := -1 } }) := by
  exact ⟨by decide, by decide⟩

/-- C6 amended: `allocate(amount)` returns `False` with the resource
unchanged when `status ≠ Available`; for an Integer resource it returns
`False` unchanged exactly when `current_value + amount > max_capacity` (the
lower bound 0 is *not* checked), and otherwise returns `True`, adds
`amount`, and moves `status` to `InUse` exactly when the new value reaches
`max_capacity`; for a CumulativeRate resource with both bounds set it
returns `False` unchanged exactly when the post-value leaves
`[min_value, max_value]`, else `True` with `amount` added. -/
theorem allocate_contract (r : EnduranceResource) (amount : ℚ) :
    (r.status ≠ .available → r.allocate amount = .ok (false, r)) ∧
    (∀ cap, r.resource_type = .integer → r.max_capacity = some cap →
      r.status = .available →
      (cap < r.current_state.current_value + amount →
        r.allocate amount = .ok (false, r)) ∧
      (r.current_state.current_value + amount ≤ cap →
        r.allocate amount = .ok (true,
          if cap ≤ r.current_state.current_value + amount then
            { r with
                current_state := { r.current_state with
                  current_value := r.current_state.current_value + amount }
                status := .in_use }
          else
            { r with current_state := { r.current_state with
                current_value := r.current_state.current_value + amount } }))) ∧
    (∀ lo hi, r.resource_type = .cumulative_rate →
      r.min_value = some lo → r.max_value = some hi →
      r.status = .available →
      ((r.current_state.current_value + amount < lo ∨
        hi < r.current_state.current_value + amount) →
        r.allocate amount = .ok (false, r)) ∧
      (lo ≤ r.current_state.current_value + amount →
        r.current_state.current_value + amount ≤ hi →
        r.allocate amount = .ok (true,
          { r with current_state := { r.current_state with
              current_value := r.current_state.current_value + amount } }))) := by
  refine ⟨?_, ?_, ?_⟩
  · intro hst
    unfold EnduranceResource.allocate EnduranceResource.can_allocate
    rw [if_pos hst, exceptBind_ok]
    simp only [Bool.false_eq_true, if_false]
    rfl
  · intro cap ht hc hst
    have hA : ∀ b : Bool,
        (r.current_state.current_value + amount ≤ cap) = (b = true) →
        r.can_allocate amount = .ok b := by
      intro b hb
      unfold EnduranceResource.can_allocate
      rw [if_neg (by simp [hst]), ht]
      simp only []
      rw [hc]
      simp only []
      rw [show (decide (r.current_state.current_value + amount ≤ cap)) = b by
        rcases b <;> simp [hb]]
    constructor
    · intro hover
      unfold EnduranceResource.allocate
      rw [hA false (by simp [not_le.mpr hover]), exceptBind_ok]
      simp only [Bool.false_eq_true, if_false]
      rfl
    · intro hle
      unfold EnduranceResource.allocate
      rw [hA true (by simp [hle]), exceptBind_ok]
      simp only [if_true]
      simp only [ht, hc]
      split <;> rfl
  · intro lo hi ht hlo hhi hst
    have hB : ∀ b : Bool,
        ((lo ≤ r.current_state.current_value + amount ∧
          r.current_state.current_value + amount ≤ hi)) = (b = true) →
        r.can_allocate amount = .ok b := by
      intro b hb
      unfold EnduranceResource.can_allocate
      rw [if_neg (by simp [hst]), ht]
      simp only []
      rw [hlo, hhi]
      simp only []
      by_cases hlt : r.current_state.current_value + amount < lo
      · rw [if_pos (by simpa using hlt)]
        rcases b with _ | _
        · rfl
        · exfalso
          have : lo ≤ r.current_state.current_value + amount ∧
              r.current_state.current_value + amount ≤ hi := by
            rw [hb]
          exact absurd this.1 (not_le.mpr hlt)
      · rw [if_neg (by simpa using hlt)]
        by_cases hgt : r.current_state.current_value + amount > hi
        · rw [if_pos (by simpa using hgt)]
          rcases b with _ | _
          · rfl
          · exfalso
            have : lo ≤ r.current_state.current_value + amount ∧
                r.current_state.current_value + amount ≤ hi := by
              rw [hb]
            exact absurd this.2 (not_le.mpr hgt)
        · rw [if_neg (by simpa using hgt)]
          rcases b with _ | _
          · exfalso
            have hfalse : ¬ (lo ≤ r.current_state.current_value + amount ∧
                r.current_state.current_value + amount ≤ hi) := by
              rw [hb]
              simp
            exact hfalse ⟨le_of_not_lt hlt, le_of_not_lt hgt⟩
          · rfl
    constructor
    · intro hout
      have hfail : ¬ (lo ≤ r.current_state.current_value + amount ∧
          r.current_state.current_value + amount ≤ hi) := by
        rcases hout with h | h
        · exact fun hand => absurd hand.1 (not_le.mpr h)
        · exact fun hand => absurd hand.2 (not_le.mpr h)
      unfold EnduranceResource.allocate
      rw [hB false (by simp [hfail]), exceptBind_ok]
      simp only [Bool.false_eq_true, if_false]
      rfl
    · intro hl hh
      unfold EnduranceResource.allocate
      rw [hB true (by simp [hl, hh]), exceptBind_ok]
      simp only [if_true]
      simp only [ht]
      rfl

/-- C1 witness: the window check at a concrete too-late cursor. -/
theorem greedy_placement_window_duration_spec_witness :
    tryScheduleTask none taskB2 40 [] = .ok none :=
  (greedy_placement_window_duration_spec none taskB2 40 [] (by decide)).1 (by decide)

/-- C2 witness: the amended characterization applied at a concrete task
whose constraint target has not been placed. -/
theorem check_task_constraints_window_spec_witness :
    tryScheduleTask none taskB2 5 [] = .ok none :=
  (check_task_constraints_window_spec taskB2 []).2
    { constraint_type := .start_after_end, target_task_id := "A" }
    (by decide) rfl none 5

/-- C10 witness: a concrete placement rejection explained entirely by
window/duration/task-constraint reasons. -/
theorem no_manager_skips_resource_checks_witness :
    tryScheduleTask none taskB2 40 [] = .ok none ∧
    checkResourceConstraints none taskB2 [] = .ok [] :=
  ⟨(no_manager_skips_resource_checks taskB2 40 []).2.mpr (Or.inl (by decide)),
   (no_manager_skips_resource_checks taskB2 40 []).1⟩

unseal Rat.add Rat.sub Rat.mul Rat.inv in
/-- C6 witness: the amended allocate contract applied to the concrete
Integer resource `gripperRes` at an in-range amount. -/
theorem allocate_contract_witness :
    gripperRes.allocate 1 = .ok (true,
      { gripperRes with
          current_state := { gripperRes.current_state with
            current_value := gripperRes.current_state.current_value + 1 }
          status := .in_use }) := by
  have h := ((allocate_contract gripperRes 1).2.1 1 rfl rfl rfl).2 (by decide)
  rw [h]
  decide

/-! ## Conservation of the task count (C4) -/

/-- Each iteration of the greedy placement loop moves exactly one task into
either `scheduled_tasks` or `unscheduled_tasks`. -/
theorem scheduleLoop_length (rm? : Option ResourceManagerView)
    (tasks : List EnduranceTask) :
    ∀ (current_time : Micros) (scheduled : List EnduranceScheduledTask)
      (unscheduled : List String) s u,
      scheduleLoop rm? tasks current_time scheduled unscheduled = .ok (s, u) →
      s.length + u.length =
        scheduled.length + unscheduled.length + tasks.length := by
  induction tasks with
  | nil =>
    intro ct sch un s u h
    unfold scheduleLoop at h
    cases h
    simp
  | cons task rest ih =>
    intro ct sch un s u h
    unfold scheduleLoop at h
    cases htry : tryScheduleTask rm? task ct sch with
    | error e => rw [htry, exceptBind_err] at h; cases h
    | ok res =>
      rw [htry, exceptBind_ok] at h
      cases res with
      | none =>
        have := ih ct sch (un ++ [task.id]) s u h
        simp at this
        simp [this]
        omega
      | some st =>
        have := ih (max ct st.end_time) (sch ++ [st]) un s u h
        simp at this
        simp [this]
        omega

/-- Each extraction-loop step appends at most one scheduled task, and
exactly one when the assignment gives the task a start minute. -/
theorem extractLoop_length (now : Micros) (H : Nat) (a : MilpAssignment)
    (pairs : List (Nat × EnduranceTask)) :
    ∀ (init l : List EnduranceScheduledTask),
      (∀ p ∈ pairs, ((List.range H).find? (fun t => a.x p.1 t)).isSome) →
      extractLoop now H a pairs init = .ok l →
      l.length = init.length + pairs.length := by
  induction pairs with
  | nil =>
    intro init l _ h
    unfold extractLoop at h
    cases h
    simp
  | cons p rest ih =>
    intro init l hall h
    unfold extractLoop at h
    cases hfind : (List.range H).find? (fun t => a.x p.1 t) with
    | none =>
      exfalso
      have := hall p (List.mem_cons_self p rest)
      rw [hfind] at this
      cases this
    | some start_minute =>
      rw [hfind] at h
      simp only [] at h
      cases hcon : EnduranceScheduledTask.construct
          { task_id := p.2.id
            start_time := now + (start_minute : Int) * 60000000
            end_time := now + (start_minute : Int) * 60000000 + p.2.preferred_duration
            duration := p.2.preferred_duration
            priority := p.2.priority
            metadata := [("algorithm", "MILP")] } with
      | error e => rw [hcon, exceptBind_err] at h; cases h
      | ok st =>
        rw [hcon, exceptBind_ok] at h
        have := ih (init ++ [attachResources p.2 st]) l
          (fun q hq => hall q (List.mem_cons_of_mem p hq)) h
        simp at this
        simp [this]
        omega

/-- C4 counterexample: the conservation equality fails on a validation
failure.  One valid task with an empty resource list fails validation
("No resources provided"); the returned result has an empty schedule and an
empty `unscheduled_tasks` list, so `0 + 0 ≠ 1`. -/
theorem conservation_counterexample :
    simpleSchedule none 0 [taskB2] [] =
      .ok { status := .failed
            message := "Validation errors: No resources provided" } ∧
    (0 : Nat) + 0 ≠ [taskB2].length := by
  exact ⟨rfl, by decide⟩

/-- C4 amended: for the greedy scheduler, when validation passes, every
returned result satisfies `total_scheduled_tasks + total_unscheduled_tasks
= len(tasks)`; a result returned on validation failure carries zero
scheduled and zero unscheduled tasks (so the equality fails for nonempty
input); for the exact scheduler, a Success result schedules every task
(empty `unscheduled_tasks`) provided the solver's reported assignment
starts each task at some minute inside the horizon. -/
theorem conservation_amended :
    (∀ (rm? : Option ResourceManagerView) (now : Micros) tasks resources r,
      validateInputs tasks resources = [] →
      simpleSchedule rm? now tasks resources = .ok r →
      r.totalScheduledTasks + r.totalUnscheduledTasks = tasks.length) ∧
    (∀ (rm? : Option ResourceManagerView) (now : Micros) tasks resources r,
      validateInputs tasks resources ≠ [] →
      simpleSchedule rm? now tasks resources = .ok r →
      r.totalScheduledTasks = 0 ∧ r.totalUnscheduledTasks = 0) ∧
    (∀ (now : Micros) tasks resources (st : SolverStatus) (a : MilpAssignment) r,
      milpSchedule now tasks resources (.solved st a) = r →
      r.status = .success →
      (∀ i < tasks.length, ∃ t < timeHorizonNat now tasks, a.x i t = true) →
      r.totalScheduledTasks = tasks.length ∧ r.totalUnscheduledTasks = 0) := by
  refine ⟨?_, ?_, ?_⟩
  · intro rm? now tasks resources r hval h
    unfold simpleSchedule at h
    rw [if_neg (by simp [hval])] at h
    simp only [] at h
    cases hloop : scheduleLoop rm? (tasks.mergeSort priorityLe) now [] [] with
    | error e => rw [hloop, exceptBind_err] at h; cases h
    | ok pr =>
      rw [hloop, exceptBind_ok] at h
      rcases pr with ⟨s, u⟩
      have hlen := scheduleLoop_length rm? (tasks.mergeSort priorityLe)
        now [] [] s u hloop
      rw [List.length_mergeSort] at hlen
      simp at hlen
      rcases hsp : (if u = [] then
          (ScheduleStatus.success,
            "Successfully scheduled all " ++ toString s.length ++ " tasks")
        else if s ≠ [] then
          (ScheduleStatus.partialStatus,
            "Scheduled " ++ toString s.length ++ " of " ++
              toString tasks.length ++ " tasks")
        else (ScheduleStatus.failed, "Failed to schedule any tasks")) with ⟨stat, msg⟩
      rw [hsp] at h
      simp only [] at h
      cases h
      simpa [EnduranceScheduleResult.totalScheduledTasks,
        EnduranceScheduleResult.totalUnscheduledTasks] using hlen
  · intro rm? now tasks resources r hval h
    unfold simpleSchedule at h
    rw [if_pos hval] at h
    cases h
    exact ⟨rfl, rfl⟩
  · intro now tasks resources st a r h hsucc hstarts
    unfold milpSchedule at h
    by_cases hval : validateInputs tasks resources ≠ []
    · rw [if_pos hval] at h
      rw [← h] at hsucc
      cases hsucc
    · rw [if_neg hval] at h
      by_cases hemp : tasks = [] ∨ resources = []
      · rw [if_pos hemp] at h
        rw [← h] at hsucc
        cases hsucc
      · rw [if_neg hemp] at h
        simp only [] at h
        by_cases hacc : st = .optimal ∨ st = .feasible
        · rw [if_pos hacc] at h
          cases hext : extractSolution now (timeHorizonNat now tasks) a tasks with
          | error e =>
            rw [hext] at h
            rw [← h] at hsucc
            cases hsucc
          | ok sched =>
            rw [hext] at h
            cases h
            have hfind : ∀ p ∈ tasks.enum,
                ((List.range (timeHorizonNat now tasks)).find?
                  (fun t => a.x p.1 t)).isSome := by
              intro p hp
              have hplt : p.1 < tasks.length := List.fst_lt_of_mem_enum hp
              rw [List.find?_isSome]
              obtain ⟨t, htH, hxt⟩ := hstarts p.1 hplt
              exact ⟨t, List.mem_range.mpr htH, hxt⟩
            have hlen := extractLoop_length now (timeHorizonNat now tasks) a
              tasks.enum [] sched hfind hext
            rw [List.enum_length] at hlen
            simp at hlen
            exact ⟨by simpa [EnduranceScheduleResult.totalScheduledTasks] using hlen, rfl⟩
        · rw [if_neg hacc] at h
          rw [← h] at hsucc
          cases hsucc

/-- C4 witness: the amended conservation at a concrete one-task run (the
task is too late for the cursor, so it lands in `unscheduled_tasks`). -/
theorem conservation_amended_witness :
    ({ status := .failed, unscheduled_tasks := ["B"],
       message := "Failed to schedule any tasks" } :
       EnduranceScheduleResult).totalScheduledTasks +
      ({ status := .failed, unscheduled_tasks := ["B"],
         message := "Failed to schedule any tasks" } :
         EnduranceScheduleResult).totalUnscheduledTasks = [taskB2].length := by
  have hr : simpleSchedule none 40 [taskB2] [gripperRes] =
      .ok { status := .failed, unscheduled_tasks := ["B"],
            message := "Failed to schedule any tasks" } := by
    unfold simpleSchedule
    rw [if_neg (by decide)]
    simp only []
    rw [List.mergeSort_singleton]
    rfl
  exact conservation_amended.1 none 40 [taskB2] [gripperRes] _ rfl hr

/-! ## The greedy scheduler can raise (C7) -/

/-- A task with zero minimum/preferred/maximum durations: every
construction-time invariant and every `validate_inputs` check passes. -/
def zeroTask : EnduranceTask :=
  { id := "zero", name := "zero", description := "zero-duration task"
    start_time := 10, end_time := 20
    min_duration := 0, max_duration := 0, preferred_duration := 0 }

/-- C7: the claim (never raises) is the documented intent, but the code
violates it: placing `zeroTask` yields `start_time == end_time`, so
`EnduranceScheduledTask.__post_init__` raises `ValueError` out of
`schedule()` instead of routing the task to `unscheduled_tasks`. -/
theorem greedy_zero_duration_crash :
    EnduranceTask.construct zeroTask = .ok zeroTask ∧
    validateInputs [zeroTask] [gripperRes] = [] ∧
    simpleSchedule none 0 [zeroTask] [gripperRes] =
      .error "start_time must be before end_time" := by
  refine ⟨rfl, rfl, ?_⟩
  unfold simpleSchedule
  rw [if_neg (by decide)]
  simp only []
  rw [List.mergeSort_singleton]
  rfl

/-! ## The MILP model never ties `x` to `y`/`z` (C3) -/

/-- A one-minute task with a wide window (times in microseconds; the window
is 100 minutes). -/
def taskA3 : EnduranceTask :=
  { id := "A", name := "A", description := "first task"
    start_time := 0, end_time := 6000000000
    min_duration := 60000000, max_duration := 60000000
    preferred_duration := 60000000 }

/-- Like `taskA3` but carrying `StartAfterEnd` on "A". -/
def taskB3 : EnduranceTask :=
  { id := "B", name := "B", description := "second task"
    start_time := 0, end_time := 6000000000
    min_duration := 60000000, max_duration := 60000000
    preferred_duration := 60000000
    task_constraints := [{ constraint_type := .start_after_end, target_task_id := "A" }] }

/-- An assignment satisfying every model constraint: the `y`/`z` copies obey
the precedence (`y_B = 1 ≥ 1 = z_A`), while the `x` variables — the ones
extraction reads — start B at minute 0 and A at minute 1. -/
def asg3 : MilpAssignment :=
  { x := fun i t => (i = 0 && t = 1) || (i = 1 && t = 0)
    y := fun i => if i = 0 then 0 else 1
    z := fun i => if i = 0 then 1 else 2
    makespan := 0 }

unseal Rat.add Rat.sub Rat.mul Rat.inv in
/-- C3 (code bug): the model constrains precedence on the `y`/`z` variables
but never links them to the `x` variables that `_extract_solution` reads, so
a solver assignment that satisfies every constraint the code builds can
yield a Success schedule in which task "B" (StartAfterEnd on "A") starts
before "A" ends: here B is placed at `[0, 60000000]` and A at
`[60000000, 120000000]`, violating `B.start_time ≥ A.end_time`. -/
theorem milp_precedence_violation :
    milpFeasible 0 [taskA3, taskB3] asg3 = true ∧
    taskB3.task_constraints =
      [{ constraint_type := .start_after_end, target_task_id := "A" }] ∧
    (milpSchedule 0 [taskA3, taskB3] [gripperRes]
      (.solved .optimal asg3)).status = .success ∧
    ((milpSchedule 0 [taskA3, taskB3] [gripperRes]
      (.solved .optimal asg3)).schedule.map
        (fun st => (st.task_id, st.start_time, st.end_time))) =
      [("A", 60000000, 120000000), ("B", 0, 60000000)] ∧
    (0 : Micros) < 120000000 := by
  refine ⟨by decide, rfl, by decide, by decide, by decide⟩

/-! ## MILP status handling (C9) -/

/-- An assignment starting every task at minute 0. -/
def asgZ : MilpAssignment :=
  { x := fun _ t => t = 0
    y := fun _ => 0
    z := fun _ => 0
    makespan := 0 }

/-- C9 counterexample: the solver reports Optimal within the time limit,
yet the result is Failed — extraction of the zero-duration task raises
`ValueError`, which the surrounding `try` converts into a failed result.
So "Success exactly when the solver reports Optimal or Feasible" is false
as stated. -/
theorem milp_success_counterexample :
    milpSchedule 0 [zeroTask] [gripperRes] (.solved .optimal asgZ) =
      { status := .failed
        message := "Error in MILP scheduling: start_time must be before end_time" } ∧
    (SolverStatus.optimal = SolverStatus.optimal ∨
      SolverStatus.optimal = SolverStatus.feasible) := by
  exact ⟨rfl, Or.inl rfl⟩

/-- C9 amended: with inputs that reach the solver (validation passed,
nonempty tasks and resources), `schedule()` returns Success exactly when
the solver reports Optimal or Feasible *and* solution extraction raises no
exception; a non-accepting solver status yields Failed with the status code
in the message; an exception from model construction or solving is caught
and converted to Failed carrying the exception text (the embedding returns
a plain result, so nothing ever propagates); an extraction exception after
an accepted status is likewise caught and converted. -/
theorem milp_status_contract (now : Micros) (tasks : List EnduranceTask)
    (resources : List EnduranceResource) (outcome : SolverOutcome) :
    ((milpSchedule now tasks resources outcome).status = .success ↔
      validateInputs tasks resources = [] ∧ ¬(tasks = [] ∨ resources = []) ∧
      ∃ st a sched, outcome = .solved st a ∧ (st = .optimal ∨ st = .feasible) ∧
        extractSolution now (timeHorizonNat now tasks) a tasks = .ok sched) ∧
    (∀ st a, outcome = .solved st a → ¬(st = .optimal ∨ st = .feasible) →
      validateInputs tasks resources = [] → ¬(tasks = [] ∨ resources = []) →
      (milpSchedule now tasks resources outcome).status = .failed ∧
      (milpSchedule now tasks resources outcome).message =
        "Solver failed with status: " ++ toString st.code) ∧
    (∀ msg, outcome = .raised msg →
      validateInputs tasks resources = [] → ¬(tasks = [] ∨ resources = []) →
      (milpSchedule now tasks resources outcome).status = .failed ∧
      (milpSchedule now tasks resources outcome).message =
        "Error in MILP scheduling: " ++ msg) ∧
    (∀ st a e, outcome = .solved st a → (st = .optimal ∨ st = .feasible) →
      validateInputs tasks resources = [] → ¬(tasks = [] ∨ resources = []) →
      extractSolution now (timeHorizonNat now tasks) a tasks = .error e →
      (milpSchedule now tasks resources outcome).status = .failed ∧
      (milpSchedule now tasks resources outcome).message =
        "Error in MILP scheduling: " ++ e) := by
  unfold milpSchedule
  by_cases hval : validateInputs tasks resources = []
  · rw [if_neg (by simp [hval])]
    by_cases hemp : tasks = [] ∨ resources = []
    · rw [if_pos hemp]
      refine ⟨?_, ?_, ?_, ?_⟩
      · constructor
        · intro h; simp at h
        · rintro ⟨-, hne, -⟩; exact absurd hemp hne
      · intro _ _ _ _ _ hne; exact absurd hemp hne
      · intro _ _ _ hne; exact absurd hemp hne
      · intro _ _ _ _ _ _ hne; exact absurd hemp hne
    · rw [if_neg hemp]
      cases outcome with
      | noSolver =>
        simp only []
        refine ⟨?_, ?_, ?_, ?_⟩
        · constructor
          · intro h; simp at h
          · rintro ⟨-, -, st, a, sched, hso, -, -⟩; cases hso
        · intro _ _ hso; cases hso
        · intro _ hso; cases hso
        · intro _ _ _ hso; cases hso
      | raised msg =>
        simp only []
        refine ⟨?_, ?_, ?_, ?_⟩
        · constructor
          · intro h; simp at h
          · rintro ⟨-, -, st, a, sched, hso, -, -⟩; cases hso
        · intro _ _ hso; cases hso
        · intro msg' hso _ _
          cases hso
          exact ⟨trivial, rfl⟩
        · intro _ _ _ hso; cases hso
      | solved st a =>
        simp only []
        by_cases hacc : st = .optimal ∨ st = .feasible
        · rw [if_pos hacc]
          cases hext : extractSolution now (timeHorizonNat now tasks) a tasks with
          | ok sched =>
            refine ⟨?_, ?_, ?_, ?_⟩
            · constructor
              · intro _
                exact ⟨hval, hemp, st, a, sched, rfl, hacc, hext⟩
              · intro _; rfl
            · intro st' a' hso hnacc
              cases hso
              exact absurd hacc hnacc
            · intro _ hso; cases hso
            · intro st' a' e hso _ _ _ hext'
              cases hso
              rw [hext] at hext'
              cases hext'
          | error e =>
            refine ⟨?_, ?_, ?_, ?_⟩
            · constructor
              · intro h; simp at h
              · rintro ⟨-, -, st', a', sched, hso, -, hext'⟩
                cases hso
                rw [hext] at hext'
                cases hext'
            · intro st' a' hso hnacc
              cases hso
              exact absurd hacc hnacc
            · intro _ hso; cases hso
            · intro st' a' e' hso _ _ _ hext'
              cases hso
              rw [hext] at hext'
              cases hext'
              exact ⟨rfl, rfl⟩
        · rw [if_neg hacc]
          refine ⟨?_, ?_, ?_, ?_⟩
          · constructor
            · intro h; simp at h
            · rintro ⟨-, -, st', a', sched, hso, hacc', -⟩
              cases hso
              exact absurd hacc' hacc
          · intro st' a' hso _ _ _
            cases hso
            exact ⟨rfl, rfl⟩
          · intro _ hso; cases hso
          · intro st' a' e hso hacc' _ _ _
            cases hso
            exact absurd hacc' hacc
  · rw [if_pos (by simp [hval])]
    refine ⟨?_, ?_, ?_, ?_⟩
    · constructor
      · intro h; simp at h
      · rintro ⟨hv, -, -⟩; exact absurd hv hval
    · intro _ _ _ _ hv; exact absurd hv hval
    · intro _ _ hv; exact absurd hv hval
    · intro _ _ _ _ _ hv; exact absurd hv hval

/-- C9 witness: the amended contract at a concrete raised exception. -/
theorem milp_status_contract_witness :
    (milpSchedule 0 [taskA3] [gripperRes] (.raised "boom")).status = .failed ∧
    (milpSchedule 0 [taskA3] [gripperRes] (.raised "boom")).message =
      "Error in MILP scheduling: " ++ "boom" :=
  (milp_status_contract 0 [taskA3] [gripperRes] (.raised "boom")).2.2.1
    "boom" rfl (by decide) (by decide)

/-! ## Dict round-trips (C8) -/

/-- Serializing a duration as total seconds and parsing it back is
lossless at microsecond resolution. -/
theorem timedeltaOfSeconds_totalSeconds (d : Micros) :
    timedeltaOfSeconds (totalSeconds d) = d := by
  unfold timedeltaOfSeconds totalSeconds
  rw [div_mul_cancel₀]
  · exact Int.floor_intCast d
  · unfold microsPerSecond
    norm_num

theorem taskStatusOfValue_toValue (s : TaskStatus) :
    taskStatusOfValue s.toValue = .ok s := by
  cases s <;> rfl

theorem taskConstraintTypeOfValue_toValue (s : TaskConstraintType) :
    taskConstraintTypeOfValue s.toValue = .ok s := by
  cases s <;> rfl

theorem scheduleStatusOfValue_toValue (s : ScheduleStatus) :
    scheduleStatusOfValue s.toValue = .ok s := by
  cases s <;> rfl

theorem resourceTypeOfValue_toValue (s : ResourceType) :
    resourceTypeOfValue s.toValue = .ok s := by
  cases s <;> rfl

theorem resourceStatusOfValue_toValue (s : ResourceStatus) :
    resourceStatusOfValue s.toValue = .ok s := by
  cases s <;> rfl

/-- Re-adding serialized task constraints through `add_task_constraint`
reproduces the original list. -/
theorem taskConstraints_roundtrip (cs : List TaskConstraint) :
    (cs.map (fun c =>
      ({ constraint_type := c.constraint_type.toValue
         target_task_id := c.target_task_id
         metadata := c.metadata } : TaskConstraintDict))).mapM
      (fun c => do
        let ty ← taskConstraintTypeOfValue c.constraint_type
        pure { constraint_type := ty
               target_task_id := c.target_task_id
               metadata := c.metadata : TaskConstraint }) = .ok cs := by
  induction cs with
  | nil => rfl
  | cons c rest ih =>
    rw [List.map_cons, List.mapM_cons]
    rw [taskConstraintTypeOfValue_toValue]
    simp only [exceptBind_ok]
    rw [ih]
    rfl

/-- Serialized resource constraints map straight back. -/
theorem resourceConstraints_roundtrip (cs : List ResourceConstraint) :
    (cs.map (fun c =>
      ({ resource_id := c.resource_id, min_amount := c.min_amount
         max_amount := c.max_amount, metadata := c.metadata } :
         ResourceConstraintDict))).map (fun c =>
      ({ resource_id := c.resource_id, min_amount := c.min_amount
         max_amount := c.max_amount, metadata := c.metadata } :
         ResourceConstraint)) = cs := by
  induction cs with
  | nil => rfl
  | cons c rest ih => rw [List.map_cons, List.map_cons, ih]

/-- Serialized resource impacts map straight back. -/
theorem resourceImpacts_roundtrip (is : List ResourceImpact) :
    (is.map (fun i =>
      ({ resource_id := i.resource_id, impact_type := i.impact_type
         impact_value := i.impact_value, metadata := i.metadata } :
         ResourceImpactDict))).map (fun i =>
      ({ resource_id := i.resource_id, impact_type := i.impact_type
         impact_value := i.impact_value, metadata := i.metadata } :
         ResourceImpact)) = is := by
  induction is with
  | nil => rfl
  | cons i rest ih => rw [List.map_cons, List.map_cons, ih]

/-- C8 part: `EnduranceTask` round-trips through its dict (re-validation in
`from_dict` passes because the task was validly constructed). -/
theorem taskFromDict_toDict (t : EnduranceTask)
    (hval : t.validateConstruction = .ok ()) :
    taskFromDict t.toDict = .ok t := by
  unfold taskFromDict EnduranceTask.toDict
  simp only []
  rw [taskStatusOfValue_toValue, exceptBind_ok]
  rw [timedeltaOfSeconds_totalSeconds, timedeltaOfSeconds_totalSeconds,
    timedeltaOfSeconds_totalSeconds]
  have hcon : EnduranceTask.construct
      { id := t.id, name := t.name, description := t.description
        start_time := t.start_time, end_time := t.end_time
        min_duration := t.min_duration, max_duration := t.max_duration
        preferred_duration := t.preferred_duration
        priority := t.priority, location := t.location
        metadata := t.metadata, status := t.status
        created_at := t.created_at } = .ok
      { id := t.id, name := t.name, description := t.description
        start_time := t.start_time, end_time := t.end_time
        min_duration := t.min_duration, max_duration := t.max_duration
        preferred_duration := t.preferred_duration
        priority := t.priority, location := t.location
        metadata := t.metadata, status := t.status
        created_at := t.created_at } := by
    unfold EnduranceTask.construct
    rw [show EnduranceTask.validateConstruction
        { id := t.id, name := t.name, description := t.description
          start_time := t.start_time, end_time := t.end_time
          min_duration := t.min_duration, max_duration := t.max_duration
          preferred_duration := t.preferred_duration
          priority := t.priority, location := t.location
          metadata := t.metadata, status := t.status
          created_at := t.created_at } = .ok () from hval]
    rfl
  rw [hcon, exceptBind_ok]
  rw [taskConstraints_roundtrip, exceptBind_ok]
  rw [resourceConstraints_roundtrip, resourceImpacts_roundtrip]
  rfl

/-- C8 part: `EnduranceScheduledTask` round-trips through its dict. -/
theorem scheduledTaskFromDict_toDict (st : EnduranceScheduledTask)
    (hval : st.validateConstruction = .ok ()) :
    scheduledTaskFromDict st.toDict = .ok st := by
  unfold scheduledTaskFromDict EnduranceScheduledTask.toDict
  simp only []
  rw [timedeltaOfSeconds_totalSeconds]
  unfold EnduranceScheduledTask.construct
  rw [show EnduranceScheduledTask.validateConstruction
      { task_id := st.task_id, start_time := st.start_time
        end_time := st.end_time, duration := st.duration
        resource_allocations := st.resource_allocations
        resource_impacts := st.resource_impacts
        priority := st.priority, metadata := st.metadata } = .ok () from hval]
  rfl

/-- C8 part: serialized schedules parse back entry by entry. -/
theorem scheduleList_roundtrip (sts : List EnduranceScheduledTask)
    (hval : ∀ st ∈ sts, st.validateConstruction = .ok ()) :
    (sts.map EnduranceScheduledTask.toDict).mapM scheduledTaskFromDict = .ok sts := by
  induction sts with
  | nil => rfl
  | cons st rest ih =>
    rw [List.map_cons, List.mapM_cons]
    rw [scheduledTaskFromDict_toDict st (hval st (List.mem_cons_self st rest))]
    simp only [exceptBind_ok]
    rw [ih (fun s hs => hval s (List.mem_cons_of_mem st hs))]
    rfl

/-- C8 part: `EnduranceScheduleResult` round-trips through its dict (the
derived `statistics` block is written out and ignored on the way back). -/
theorem scheduleResultFromDict_toDict (r : EnduranceScheduleResult)
    (hval : ∀ st ∈ r.schedule, st.validateConstruction = .ok ()) :
    scheduleResultFromDict r.toDict = .ok r := by
  unfold scheduleResultFromDict EnduranceScheduleResult.toDict
  simp only []
  rw [scheduleStatusOfValue_toValue, exceptBind_ok]
  rw [scheduleList_roundtrip r.schedule hval, exceptBind_ok]
  rfl

/-- C8 part: `EnduranceResource.from_dict` re-runs `__post_init__`, so the
round-trip lands on `initializeState` of the original resource:
`current_state.current_value` is reset to 0 (Integer) or `initial_value`
(CumulativeRate) while every other field survives. -/
theorem resourceFromDict_toDict (r : EnduranceResource)
    (hval : r.validateConfiguration = .ok ()) :
    resourceFromDict r.toDict = .ok r.initializeState := by
  unfold resourceFromDict EnduranceResource.toDict
  simp only []
  rw [resourceTypeOfValue_toValue, exceptBind_ok]
  rw [resourceStatusOfValue_toValue, exceptBind_ok]
  unfold EnduranceResource.construct
  rw [show EnduranceResource.validateConfiguration
      { id := r.id, name := r.name, description := r.description
        resource_type := r.resource_type, max_capacity := r.max_capacity
        initial_value := r.initial_value, min_value := r.min_value
        max_value := r.max_value
        current_state :=
          { current_value := r.current_state.current_value
            rate := r.current_state.rate
            last_updated := r.current_state.last_updated
            metadata := r.current_state.metadata }
        status := r.status, location := r.location
        capabilities := r.capabilities, metadata := r.metadata
        created_at := r.created_at } = .ok () from hval]
  rfl

/-- A resource mutated away from its initialization value (the state after
`gripperRes2.allocate(1)` was accepted). -/
def mutatedRes : EnduranceResource :=
  { gripperRes2 with current_state :=
      { gripperRes2.current_state with current_value := 1 } }

unseal Rat.add Rat.sub Rat.mul Rat.inv in
/-- C8 counterexample: after the accepted mutation `allocate(1)`,
`from_dict(to_dict(x))` is *not* `x`: `_initialize_state` inside
`from_dict`'s constructor resets `current_value` from 1 back to 0, giving
back the pristine `gripperRes2` instead of the mutated resource. -/
theorem dict_round_trip_counterexample :
    gripperRes2.allocate 1 = .ok (true, mutatedRes) ∧
    resourceFromDict mutatedRes.toDict = .ok gripperRes2 ∧
    mutatedRes ≠ gripperRes2 := by
  refine ⟨by decide, by decide, by decide⟩

/-- C8 amended: `from_dict(to_dict(x)) = x` holds field by field for
`EnduranceTask`, `EnduranceScheduledTask` and `EnduranceScheduleResult`
(validly constructed values; timestamps and second-counts are lossless at
microsecond precision); for `EnduranceResource` the round-trip instead
returns `initializeState x` — every field is preserved *except*
`current_state.current_value`, which reverts to the type's initialization
value, so a resource mutated by accepted calls does not round-trip. -/
theorem dict_round_trip :
    (∀ t : EnduranceTask, t.validateConstruction = .ok () →
      taskFromDict t.toDict = .ok t) ∧
    (∀ st : EnduranceScheduledTask, st.validateConstruction = .ok () →
      scheduledTaskFromDict st.toDict = .ok st) ∧
    (∀ r : EnduranceScheduleResult,
      (∀ st ∈ r.schedule, st.validateConstruction = .ok ()) →
      scheduleResultFromDict r.toDict = .ok r) ∧
    (∀ r : EnduranceResource, r.validateConfiguration = .ok () →
      resourceFromDict r.toDict = .ok r.initializeState) :=
  ⟨taskFromDict_toDict, scheduledTaskFromDict_toDict,
   scheduleResultFromDict_toDict, resourceFromDict_toDict⟩

unseal Rat.add Rat.sub Rat.mul Rat.inv in
/-- C8 witness: the amended round-trip applied at concrete values. -/
theorem dict_round_trip_witness :
    taskFromDict taskB2.toDict = .ok taskB2 ∧
    scheduledTaskFromDict scheduledA2.toDict = .ok scheduledA2 ∧
    scheduleResultFromDict
      ({ status := .success, schedule := [scheduledA2] } :
        EnduranceScheduleResult).toDict =
      .ok { status := .success, schedule := [scheduledA2] } ∧
    resourceFromDict gripperRes2.toDict = .ok gripperRes2.initializeState :=
  ⟨dict_round_trip.1 taskB2 (by decide),
   dict_round_trip.2.1 scheduledA2 (by decide),
   dict_round_trip.2.2.1 { status := .success, schedule := [scheduledA2] }
     (by intro st hst; rw [List.mem_singleton] at hst; subst hst; decide),
   dict_round_trip.2.2.2 gripperRes2 (by decide)⟩

end SpacecraftScheduler
